import Mathlib

/-!
# AI character server (`Node.js`): chat / train / generate handlers

A shallow embedding of the request handlers of the Express server in `src/Node.js`
and of the JavaScript built-ins they call, followed by theorems about the
character memory store, response parsing and image reference resolution.

Modelling conventions

* A JavaScript string is the list of its UTF-16 code units (`JsString`).
* A JavaScript value that comes out of `JSON.parse` (or is `undefined`) is a `JsVal`.
  A number keeps its source lexeme; nothing below depends on its numeric value
  except `ToString`, which is a parameter where it is needed.
* The request bodies are typed as the data model describes them: character
  attributes, message, history items and story are strings; optional fields are
  `Option`s.
* The model provider is a black box: a `Gateway` maps the credential override and
  the prompt to the generated text, or to `none` when the call throws.
* `new Date()` is the `now` argument of the chat handler.
* A handler runs from request to reply without interleaving with another one.
-/

namespace CharacterServer

/-! ## JavaScript strings -/

/-- A UTF-16 code unit. -/
abbrev CodeUnit := Fin 65536

/-- A JavaScript string: a finite sequence of UTF-16 code units. -/
abbrev JsString := List CodeUnit

/-- The UTF-16 code units of one Unicode scalar value. -/
def unitsOfChar (c : Char) : JsString :=
  if c.toNat < 0x10000 then [Fin.ofNat c.toNat]
  else [Fin.ofNat (0xD800 + (c.toNat - 0x10000) / 0x400),
        Fin.ofNat (0xDC00 + (c.toNat - 0x10000) % 0x400)]

/-- The JavaScript string denoted by a source-text literal. -/
def utf16 (s : String) : JsString := s.toList.flatMap unitsOfChar

/-- Code units `0xD800 .. 0xDBFF`. -/
def isHighSurrogate (c : CodeUnit) : Bool := 0xD800 ≤ c.val && c.val ≤ 0xDBFF

/-- Code units `0xDC00 .. 0xDFFF`. -/
def isLowSurrogate (c : CodeUnit) : Bool := 0xDC00 ≤ c.val && c.val ≤ 0xDFFF

/-- The string has no unpaired surrogate (`String.prototype.isWellFormed`). -/
def isWellFormed : JsString → Bool
  | [] => true
  | c :: rest =>
    if isHighSurrogate c then
      match rest with
      | [] => false
      | d :: rest2 => isLowSurrogate d && isWellFormed rest2
    else if isLowSurrogate c then false
    else isWellFormed rest

/-- The expression `s.substring(0, n)`: the first `n` code units of `s`. -/
def substring0 (s : JsString) (n : Nat) : JsString := s.take n

/-- The expression `xs.slice(-n)` on an array: its last `n` elements. -/
def sliceLast {α : Type} (n : Nat) (xs : List α) : List α := xs.drop (xs.length - n)

/-- The expression `xs.join(sep)` on an array of strings. -/
def joinWith (sep : JsString) : List JsString → JsString
  | [] => []
  | [x] => x
  | x :: y :: rest => x ++ sep ++ joinWith sep (y :: rest)

/-- ECMAScript `WhiteSpace` and `LineTerminator` code points, as removed by `trim`. -/
def isJsWhiteSpace (c : CodeUnit) : Bool :=
  c.val = 0x09 || c.val = 0x0A || c.val = 0x0B || c.val = 0x0C || c.val = 0x0D ||
  c.val = 0x20 || c.val = 0xA0 || c.val = 0x1680 ||
  (0x2000 ≤ c.val && c.val ≤ 0x200A) ||
  c.val = 0x2028 || c.val = 0x2029 || c.val = 0x202F || c.val = 0x205F ||
  c.val = 0x3000 || c.val = 0xFEFF

/-- The method `String.prototype.trim`. -/
def trim (s : JsString) : JsString :=
  ((s.dropWhile isJsWhiteSpace).reverse.dropWhile isJsWhiteSpace).reverse

/-- The code-fence marker: three grave accents. -/
def fenceMark : JsString := [0x60, 0x60, 0x60]

/-- The code-fence marker followed by `json`. -/
def fenceJsonMark : JsString := fenceMark ++ utf16 "json"

/-- Worker of `stripFences`: `skip` code units of a match are still to be dropped. -/
def stripFencesAux : Nat → JsString → JsString
  | _, [] => []
  | skip + 1, _ :: rest => stripFencesAux skip rest
  | 0, c :: rest =>
    if fenceJsonMark.isPrefixOf (c :: rest) then stripFencesAux 6 rest
    else if fenceMark.isPrefixOf (c :: rest) then stripFencesAux 2 rest
    else c :: stripFencesAux 0 rest

/-- The expression `response.replace(/[fence]json|[fence]/g, '')`: every occurrence of
the fence marker, with `json` after it when present, is removed, scanning left to right. -/
def stripFences (s : JsString) : JsString := stripFencesAux 0 s

/-! ### `encodeURIComponent` -/

/-- Errors a JavaScript built-in throws. -/
inductive JsError where
  | typeError
  | uriError
  | syntaxErr
  deriving DecidableEq

/-- The `uriUnreserved` set: letters, decimal digits and `- _ . ! ~ * ' ( )`. -/
def isUriUnreserved (c : CodeUnit) : Bool :=
  (0x41 ≤ c.val && c.val ≤ 0x5A) || (0x61 ≤ c.val && c.val ≤ 0x7A) ||
  (0x30 ≤ c.val && c.val ≤ 0x39) ||
  c.val = 0x2D || c.val = 0x5F || c.val = 0x2E || c.val = 0x21 || c.val = 0x7E ||
  c.val = 0x2A || c.val = 0x27 || c.val = 0x28 || c.val = 0x29

/-- The UTF-8 octets of a code point. -/
def utf8Octets (cp : Nat) : List Nat :=
  if cp < 0x80 then [cp]
  else if cp < 0x800 then [0xC0 + cp / 0x40, 0x80 + cp % 0x40]
  else if cp < 0x10000 then [0xE0 + cp / 0x1000, 0x80 + cp / 0x40 % 0x40, 0x80 + cp % 0x40]
  else [0xF0 + cp / 0x40000, 0x80 + cp / 0x1000 % 0x40, 0x80 + cp / 0x40 % 0x40,
        0x80 + cp % 0x40]

/-- An upper-case hexadecimal digit. -/
def hexDigit (n : Nat) : CodeUnit :=
  if n < 10 then Fin.ofNat (0x30 + n) else Fin.ofNat (0x41 + (n - 10))

/-- The escape `%XX` of one octet. -/
def percentOctet (b : Nat) : JsString := [0x25, hexDigit (b / 16), hexDigit (b % 16)]

/-- The escapes of the UTF-8 octets of a code point. -/
def percentEscape (cp : Nat) : JsString := (utf8Octets cp).flatMap percentOctet

/-- The code point of a surrogate pair. -/
def pairCodePoint (hi lo : CodeUnit) : Nat :=
  0x10000 + (hi.val - 0xD800) * 0x400 + (lo.val - 0xDC00)

/-- The function `encodeURIComponent` on a string (ECMAScript `Encode` with the
unreserved set): throws `URIError` at an unpaired surrogate. -/
def encodeURIComponent : JsString → Except JsError JsString
  | [] => .ok []
  | c :: rest =>
    if isUriUnreserved c then (encodeURIComponent rest).map (c :: ·)
    else if isLowSurrogate c then .error .uriError
    else if isHighSurrogate c then
      match rest with
      | [] => .error .uriError
      | d :: rest2 =>
        if isLowSurrogate d then
          (encodeURIComponent rest2).map (percentEscape (pairCodePoint c d) ++ ·)
        else .error .uriError
    else (encodeURIComponent rest).map (percentEscape c.val ++ ·)

/-! ## JavaScript values and `JSON.parse` -/

/-- A JavaScript value as `JSON.parse` builds it, or `undefined`. Objects list their
own properties in creation order, with distinct keys. -/
inductive JsVal where
  | undefined
  | null
  | bool (b : Bool)
  | num (lexeme : JsString)
  | str (s : JsString)
  | arr (elems : List JsVal)
  | obj (props : List (JsString × JsVal))

/-- The value of the own property `k` in a property list, `undefined` when absent. -/
def lookupProp (k : JsString) : List (JsString × JsVal) → JsVal
  | [] => .undefined
  | (k2, v) :: rest => if k2 = k then v else lookupProp k rest

/-- Whether the property list has the own property `k`. -/
def hasOwn (k : JsString) : List (JsString × JsVal) → Bool
  | [] => false
  | (k2, _) :: rest => k2 = k || hasOwn k rest

/-- Create or overwrite the own property `k` (`CreateDataProperty`, and `o.k = v`
on an ordinary object): an existing key keeps its position. -/
def setProp (k : JsString) (v : JsVal) : List (JsString × JsVal) → List (JsString × JsVal)
  | [] => [(k, v)]
  | (k2, v2) :: rest => if k2 = k then (k2, v) :: rest else (k2, v2) :: setProp k v rest

/-- The member access `v.k`, for the property names this program reads (`text`,
`emotion`, `scene`, `imagePrompt`, `name`): none of them is inherited from a built-in
prototype, so the access yields the own property of an object, `undefined` on any
other object-coercible value, and throws `TypeError` on `null` and `undefined`. -/
def getProp (v : JsVal) (k : JsString) : Except JsError JsVal :=
  match v with
  | .undefined => .error .typeError
  | .null => .error .typeError
  | .obj props => .ok (lookupProp k props)
  | _ => .ok .undefined

/-- JSON insignificant whitespace: tab, line feed, carriage return, space. -/
def isJsonWs (c : CodeUnit) : Bool :=
  c.val = 0x09 || c.val = 0x0A || c.val = 0x0D || c.val = 0x20

/-- Drop leading JSON whitespace. -/
def skipWs (cs : JsString) : JsString := cs.dropWhile isJsonWs

/-- A decimal digit. -/
def isDigit (c : CodeUnit) : Bool := 0x30 ≤ c.val && c.val ≤ 0x39

/-- The value of a hexadecimal digit. -/
def hexVal (c : CodeUnit) : Option Nat :=
  if 0x30 ≤ c.val && c.val ≤ 0x39 then some (c.val - 0x30)
  else if 0x41 ≤ c.val && c.val ≤ 0x46 then some (c.val - 0x41 + 10)
  else if 0x61 ≤ c.val && c.val ≤ 0x66 then some (c.val - 0x61 + 10)
  else none

/-- The code unit of a `\uXXXX` escape. -/
def hex4 (a b c d : CodeUnit) : Option CodeUnit :=
  match hexVal a, hexVal b, hexVal c, hexVal d with
  | some x, some y, some z, some w => some (Fin.ofNat (((x * 16 + y) * 16 + z) * 16 + w))
  | _, _, _, _ => none

/-- The character of a single-character escape `\"  \\  \/  \b  \f  \n  \r  \t`. -/
def simpleEscape (e : CodeUnit) : Option CodeUnit :=
  if e = 0x22 then some 0x22
  else if e = 0x5C then some 0x5C
  else if e = 0x2F then some 0x2F
  else if e = 0x62 then some 0x08
  else if e = 0x66 then some 0x0C
  else if e = 0x6E then some 0x0A
  else if e = 0x72 then some 0x0D
  else if e = 0x74 then some 0x09
  else none

/-- A JSON string after its opening quote: the decoded string and the input after the
closing quote. -/
def parseStringBody : JsString → Option (JsString × JsString)
  | [] => none
  | c :: rest =>
    if c = 0x22 then some ([], rest)
    else if c = 0x5C then
      match rest with
      | [] => none
      | e :: rest2 =>
        if e = 0x75 then
          match rest2 with
          | h1 :: h2 :: h3 :: h4 :: rest3 =>
            match hex4 h1 h2 h3 h4, parseStringBody rest3 with
            | some u, some (s, out) => some (u :: s, out)
            | _, _ => none
          | _ => none
        else
          match simpleEscape e, parseStringBody rest2 with
          | some u, some (s, out) => some (u :: s, out)
          | _, _ => none
    else if c.val < 0x20 then none
    else
      match parseStringBody rest with
      | some (s, out) => some (c :: s, out)
      | none => none

/-- An optional fraction `.digits`: its lexeme and the remaining input. -/
def lexFraction (cs : JsString) : Option (JsString × JsString) :=
  match cs with
  | [] => some ([], [])
  | c :: rest =>
    if c = 0x2E then
      if (rest.takeWhile isDigit).isEmpty then none
      else some (c :: rest.takeWhile isDigit, rest.dropWhile isDigit)
    else some ([], c :: rest)

/-- An optional exponent `e[+-]digits`: its lexeme and the remaining input. -/
def lexExponent (cs : JsString) : Option (JsString × JsString) :=
  match cs with
  | [] => some ([], [])
  | c :: rest =>
    if c = 0x65 || c = 0x45 then
      match rest with
      | [] => none
      | s :: rest2 =>
        if s = 0x2B || s = 0x2D then
          if (rest2.takeWhile isDigit).isEmpty then none
          else some (c :: s :: rest2.takeWhile isDigit, rest2.dropWhile isDigit)
        else
          if (rest.takeWhile isDigit).isEmpty then none
          else some (c :: rest.takeWhile isDigit, rest.dropWhile isDigit)
    else some ([], c :: rest)

/-- The integer part `0 | [1-9] digits`: its lexeme and the remaining input. -/
def lexInt (cs : JsString) : Option (JsString × JsString) :=
  match cs with
  | [] => none
  | d :: rest =>
    if d = 0x30 then some ([d], rest)
    else if isDigit d then some (d :: rest.takeWhile isDigit, rest.dropWhile isDigit)
    else none

/-- An optional minus sign: its lexeme and the remaining input. -/
def lexSign (cs : JsString) : JsString × JsString :=
  match cs with
  | [] => ([], [])
  | c :: rest => if c = 0x2D then ([c], rest) else ([], c :: rest)

/-- A JSON number `-? int frac? exp?`: its lexeme and the remaining input. -/
def lexNumber (cs : JsString) : Option (JsString × JsString) :=
  match lexInt (lexSign cs).2 with
  | none => none
  | some (i, r1) =>
    match lexFraction r1 with
    | none => none
    | some (f, r2) =>
      match lexExponent r2 with
      | none => none
      | some (e, r3) => some ((lexSign cs).1 ++ i ++ f ++ e, r3)

/-- Why a parse stopped without a value. -/
inductive ParseStop where
  | malformed
  | outOfFuel
  deriving DecidableEq

mutual
/-- A JSON value, after optional whitespace. -/
def parseValue : Nat → JsString → Except ParseStop (JsVal × JsString)
  | 0, _ => .error .outOfFuel
  | fuel + 1, cs =>
    match skipWs cs with
    | [] => .error .malformed
    | c :: rest =>
      if c = 0x7B then
        match skipWs rest with
        | [] => .error .malformed
        | d :: rest2 =>
          if d = 0x7D then .ok (.obj [], rest2) else parseMembers fuel (d :: rest2) []
      else if c = 0x5B then
        match skipWs rest with
        | [] => .error .malformed
        | d :: rest2 =>
          if d = 0x5D then .ok (.arr [], rest2) else parseElements fuel (d :: rest2) []
      else if c = 0x22 then
        match parseStringBody rest with
        | some (s, out) => .ok (.str s, out)
        | none => .error .malformed
      else if (utf16 "true").isPrefixOf (c :: rest) then .ok (.bool true, rest.drop 3)
      else if (utf16 "false").isPrefixOf (c :: rest) then .ok (.bool false, rest.drop 4)
      else if (utf16 "null").isPrefixOf (c :: rest) then .ok (.null, rest.drop 3)
      else
        match lexNumber (c :: rest) with
        | some (lexeme, out) => .ok (.num lexeme, out)
        | none => .error .malformed
/-- The elements of a non-empty array up to and including the closing bracket;
`acc` holds the elements read so far. -/
def parseElements : Nat → JsString → List JsVal → Except ParseStop (JsVal × JsString)
  | 0, _, _ => .error .outOfFuel
  | fuel + 1, cs, acc =>
    match parseValue fuel cs with
    | .error e => .error e
    | .ok (v, out) =>
      match skipWs out with
      | [] => .error .malformed
      | d :: rest =>
        if d = 0x2C then parseElements fuel rest (acc ++ [v])
        else if d = 0x5D then .ok (.arr (acc ++ [v]), rest)
        else .error .malformed
/-- The members of a non-empty object up to and including the closing brace;
`acc` holds the properties created so far. -/
def parseMembers : Nat → JsString → List (JsString × JsVal) →
    Except ParseStop (JsVal × JsString)
  | 0, _, _ => .error .outOfFuel
  | fuel + 1, cs, acc =>
    match skipWs cs with
    | [] => .error .malformed
    | q :: rest =>
      if q = 0x22 then
        match parseStringBody rest with
        | none => .error .malformed
        | some (key, out) =>
          match skipWs out with
          | [] => .error .malformed
          | colon :: rest2 =>
            if colon = 0x3A then
              match parseValue fuel rest2 with
              | .error e => .error e
              | .ok (v, out2) =>
                match skipWs out2 with
                | [] => .error .malformed
                | d :: rest3 =>
                  if d = 0x2C then parseMembers fuel rest3 (setProp key v acc)
                  else if d = 0x7D then .ok (.obj (setProp key v acc), rest3)
                  else .error .malformed
            else .error .malformed
      else .error .malformed
end

/-- The function `JSON.parse` on a string: the value, or `SyntaxError`. The fuel
`2 * length + 2` is never exhausted (`parseValue_fuel`). -/
def jsonParse (s : JsString) : Except JsError JsVal :=
  match parseValue (2 * s.length + 2) s with
  | .ok (v, out) => if (skipWs out).isEmpty then .ok v else .error .syntaxErr
  | .error _ => .error .syntaxErr

mutual
/-- The abstract operation `ToString` on a value built by `JSON.parse`, as applied by
`encodeURIComponent` to its argument. `numStr` is `Number::toString` on the value of
a numeric lexeme. An array is joined with commas. An ordinary object gives
`[object Object]`, unless it has an own `toString` property: that one is not callable,
neither own nor inherited `valueOf` yields a primitive, and `TypeError` is thrown. -/
def toStringJs (numStr : JsString → JsString) : JsVal → Except JsError JsString
  | .undefined => .ok (utf16 "undefined")
  | .null => .ok (utf16 "null")
  | .bool true => .ok (utf16 "true")
  | .bool false => .ok (utf16 "false")
  | .num lexeme => .ok (numStr lexeme)
  | .str s => .ok s
  | .arr elems => (elemStrings numStr elems).map (joinWith (utf16 ","))
  | .obj props =>
    if hasOwn (utf16 "toString") props then .error .typeError
    else .ok (utf16 "[object Object]")
termination_by structural v => v
/-- The strings `Array.prototype.join` puts between the separators: the empty string
for `null` and `undefined`, `ToString` of any other element. -/
def elemStrings (numStr : JsString → JsString) : List JsVal → Except JsError (List JsString)
  | [] => .ok []
  | e :: rest =>
    match (match e with
      | .undefined => Except.ok []
      | .null => Except.ok []
      | v => toStringJs numStr v) with
    | .error err => .error err
    | .ok a => (elemStrings numStr rest).map (a :: ·)
termination_by structural elems => elems
end

/-! ## The character memory store -/

/-- One conversation turn pushed by the chat handler. -/
structure Turn where
  user : JsString
  ai : JsVal
  timestamp : Nat

/-- The object stored per character name. The chat handler creates it without a
`training` property. -/
structure MemoryEntry where
  personality : JsString
  story : JsString
  training : Option JsString
  conversations : List Turn

/-- The `Map` named `characterMemory`: its entries in insertion order. -/
abbrev Store := List (JsString × MemoryEntry)

/-- The method `Map.prototype.get`; `none` is `undefined`. -/
def mapGet (m : Store) (k : JsString) : Option MemoryEntry :=
  match m with
  | [] => none
  | (k2, e) :: rest => if k2 = k then some e else mapGet rest k

/-- The method `Map.prototype.has`. -/
def mapHas (m : Store) (k : JsString) : Bool := (mapGet m k).isSome

/-- The method `Map.prototype.set`: an existing key keeps its position, a new key is
added last. -/
def mapSet (m : Store) (k : JsString) (e : MemoryEntry) : Store :=
  match m with
  | [] => [(k, e)]
  | (k2, e2) :: rest => if k2 = k then (k2, e) :: rest else (k2, e2) :: mapSet rest k e

/-! ## Requests, replies and the model gateway -/

/-- The `character` object of a request body. -/
structure Character where
  name : JsString
  personality : JsString
  story : JsString
  scene : JsString

/-- One item of the `history` array of a chat request. -/
structure HistoryItem where
  role : JsString
  content : JsString

/-- The body of `POST /api/chat`. -/
structure ChatRequest where
  character : Character
  message : JsString
  history : List HistoryItem
  apiKey : Option JsString

/-- The body of `POST /api/train`. -/
structure TrainRequest where
  character : Character

/-- The body of `POST /api/generate`. -/
structure GenerateRequest where
  action : Option JsString
  name : Option JsString
  type : JsString
  base_story : Option JsString

/-- The model provider behind `getGenerativeModel(..).generateContent(prompt)` and
`result.response.text()`: from the credential override (`none` is the process-wide
client `genAI`) and the prompt to the generated text, `none` when the call throws. -/
abbrev Gateway := Option JsString → JsString → Option JsString

/-- The reply of the chat handler: `res.json` with status 200, or status 500. -/
inductive ChatResponse where
  | ok (text emotion scene image : JsVal)
  | failed (error text : JsString)

/-- The reply of the train handler. -/
inductive TrainResponse where
  | ok (success : Bool) (message : JsString)
  | failed (error : JsString)

/-- The reply of the generate handler, the character as `res.json` serialises it. -/
inductive GenerateResponse where
  | ok (character : JsVal)
  | failed (error : JsString)

/-- The HTTP status of a chat reply. -/
def ChatResponse.status : ChatResponse → Nat
  | .ok _ _ _ _ => 200
  | .failed _ _ => 500

/-- The HTTP status of a train reply. -/
def TrainResponse.status : TrainResponse → Nat
  | .ok _ _ => 200
  | .failed _ => 500

/-- The HTTP status of a generate reply. -/
def GenerateResponse.status : GenerateResponse → Nat
  | .ok _ => 200
  | .failed _ => 500

/-- The expression `a || d` on an optional string: `d` when `a` is `undefined` or
empty. -/
def orElse (a : Option JsString) (d : JsString) : JsString :=
  match a with
  | some s => if s.isEmpty then d else s
  | none => d

/-- The truthiness of an optional string. -/
def truthy (a : Option JsString) : Bool :=
  match a with
  | some s => !s.isEmpty
  | none => false

/-- The client selection `apiKey ? new GoogleGenerativeAI(apiKey) : genAI`. -/
def credentialOf (apiKey : Option JsString) : Option JsString :=
  if truthy apiKey then apiKey else none

/-! ## `generateImage` -/

/-- The address of the placeholder image service, up to `text=`. -/
def placeholderBase : JsString := utf16 "https://placehold.co/400x300/7C3AED/FFFFFF?text="

/-- The function `generateImage`: `null` is what the `catch` branch returns. A prompt
that is not a string has no callable `substring`, which throws `TypeError` inside the
`try`. -/
def generateImage (prompt : JsVal) : JsVal :=
  match prompt with
  | .str p =>
    match encodeURIComponent (substring0 p 50) with
    | .ok encodedPrompt => .str (placeholderBase ++ encodedPrompt)
    | .error _ => .null
  | _ => .null

/-! ## `POST /api/chat` -/

/-- One line of the conversation context. -/
def historyLine (character : Character) (h : HistoryItem) : JsString :=
  (if h.role = utf16 "user" then utf16 "المستخدم" else character.name) ++ utf16 ": " ++
    h.content

/-- The prompt of the chat handler (`context`). -/
def chatContext (character : Character) (history : List HistoryItem) (message : JsString) :
    JsString :=
  utf16 "\nأنت تلعب دور " ++
  character.name ++
  utf16 ".\nصفاتك: " ++
  character.personality ++
  utf16 "\nقصتك: " ++
  character.story ++
  utf16 "\nالمكان الحالي: " ++
  character.scene ++
  utf16 "\n\nالمحادثة السابقة:\n" ++
  joinWith (utf16 "\n") ((sliceLast 3 history).map (historyLine character)) ++
  utf16 "\n\nرسالة المستخدم: \"" ++
  message ++
  utf16 "\"\n\nتعليمات:\n1. أجب كما لو كنت " ++
  character.name ++
  utf16 " الحقيقي\n2. استخدم الشخصية ولهجة " ++
  character.name ++
  utf16 "\n3. عبّر عن مشاعر مناسبة\n4. يمكنك تغيير المكان إذا كان منطقياً\n5. أعد الرد بتنسيق JSON:\n\x7b\n    \"text\": \"ردك هنا\",\n    \"emotion\": \"سعيد/حزين/غاضب/متفاجئ/محايد\",\n    \"scene\": \"المكان الجديد\",\n    \"imagePrompt\": \"وصف للصورة بالإنجليزية\"\n\x7d"

/-- The value the chat handler uses when `JSON.parse` throws. -/
def chatFallback (response : JsString) (character : Character) : JsVal :=
  .obj [(utf16 "text", .str response),
        (utf16 "emotion", .str (utf16 "محايد")),
        (utf16 "scene", .str character.scene),
        (utf16 "imagePrompt", .str (character.name ++ utf16 " in " ++ character.scene))]

/-- The inner `try`/`catch` of the chat handler: strip fences, trim, `JSON.parse`,
fallback (`responseData`). -/
def parseChatResponse (response : JsString) (character : Character) : JsVal :=
  match jsonParse (trim (stripFences response)) with
  | .ok v => v
  | .error _ => chatFallback response character

/-- The fixed 500 reply of the chat handler. -/
def chatError : ChatResponse :=
  .failed (utf16 "حدث خطأ في المعالجة") (utf16 "عذراً، حدث خطأ. حاول مرة أخرى.")

/-- The memory entry a chat request creates for a name the store does not have. -/
def freshEntry (character : Character) : MemoryEntry :=
  { personality := character.personality, story := character.story, training := none,
    conversations := [] }

/-- The statement `if (!characterMemory.has(memoryKey)) characterMemory.set(..)`. -/
def getOrCreate (mem : Store) (character : Character) : Store :=
  if mapHas mem character.name then mem else mapSet mem character.name (freshEntry character)

/-- The statements `memory.conversations.push(turn)` and the trim to the last 50. -/
def appendTurn (conversations : List Turn) (turn : Turn) : List Turn :=
  if (conversations ++ [turn]).length > 50 then sliceLast 50 (conversations ++ [turn])
  else conversations ++ [turn]

/-- The handler of `POST /api/chat`: the store after the request and the reply.
Every exception between the first and the last statement reaches the outer `catch`. -/
def chat (gen : Gateway) (now : Nat) (req : ChatRequest) (mem : Store) :
    Store × ChatResponse :=
  let character := req.character
  let memoryKey := character.name
  let mem1 := getOrCreate mem character
  let memory := mapGet mem1 memoryKey
  let context := chatContext character req.history req.message
  match gen (credentialOf req.apiKey) context with
  | none => (mem1, chatError)
  | some response =>
    let responseData := parseChatResponse response character
    match getProp responseData (utf16 "imagePrompt") with
    | .error _ => (mem1, chatError)
    | .ok imagePrompt =>
      let imageUrl := generateImage imagePrompt
      match memory, getProp responseData (utf16 "text") with
      | some entry, .ok text =>
        let turn : Turn := { user := req.message, ai := text, timestamp := now }
        let mem2 := mapSet mem1 memoryKey
          { entry with conversations := appendTurn entry.conversations turn }
        match getProp responseData (utf16 "emotion"), getProp responseData (utf16 "scene") with
        | .ok emotion, .ok scene => (mem2, .ok text emotion scene imageUrl)
        | _, _ => (mem2, chatError)
      | _, _ => (mem1, chatError)

/-! ## `POST /api/train` -/

/-- The prompt of the train handler. -/
def trainPrompt (character : Character) : JsString :=
  utf16 "\nأنت الآن " ++
  character.name ++
  utf16 ".\nصفاتك الشخصية: " ++
  character.personality ++
  utf16 "\nقصتك الكاملة: " ++
  character.story ++
  utf16 "\n\nستتلقى رسائل من مستخدمين وتجب كما لو كنت هذه الشخصية.\nتذكر:\n1. لا تكشف أنك ذكاء اصطناعي\n2. تصرف بسلوك " ++
  character.name ++
  utf16 "\n3. استخدم معرفتك وخبراتك من القصة\n4. حافظ على الاتساق في الشخصية\n\nهل فهمت دورك؟ أجب بنعم مع وصف قصير لشخصيتك."

/-- The handler of `POST /api/train`. -/
def train (gen : Gateway) (req : TrainRequest) (mem : Store) : Store × TrainResponse :=
  let character := req.character
  match gen none (trainPrompt character) with
  | none => (mem, .failed (utf16 "خطأ في التدريب"))
  | some training =>
    (mapSet mem character.name
      { personality := character.personality, story := character.story,
        training := some training, conversations := [] },
     .ok true (utf16 "تم تدريب الشخصية"))

/-! ## `POST /api/generate` -/

/-- The phrase chosen by `type` in the creation prompt. -/
def kindPhrase (type : JsString) : JsString :=
  if type = utf16 "real" then utf16 "حقيقية تاريخية"
  else if type = utf16 "anime" then utf16 "أنمي يابانية"
  else utf16 "خيالية"

/-- The prompt that asks to elaborate `base_story`. -/
def elaboratePrompt (name : Option JsString) (type base_story : JsString) : JsString :=
  utf16 "\nحسن من قصة الشخصية التالية:\n\nالاسم: " ++
  orElse name (utf16 "شخصية") ++
  utf16 "\nالنوع: " ++
  type ++
  utf16 "\nالقصة الحالية: " ++
  base_story ++
  utf16 "\n\nأعد كتابة القصة لجعلها أكثر تفصيلاً وإثارة.\nأضف:\n1. خلفية مفصلة\n2. تجارب مهمة\n3. الصفات الشخصية\n4. هدف في الحياة\n5. مشهد ابتدائي مناسب\n\nأعد القصة باللغة العربية."

/-- The prompt that asks for a new character. -/
def createPrompt (type : JsString) : JsString :=
  utf16 "\nأنشئ شخصية " ++
  kindPhrase type ++
  utf16 " جديدة.\n\nالمتطلبات:\n1. اسم عربي مميز\n2. قصة مفصلة (5-7 جمل)\n3. صفات شخصية متعددة\n4. مشهد ابتدائي\n5. صورة ذهنية للشخصية\n\nأعد النتيجة بتنسيق JSON:\n\x7b\n    \"name\": \"الاسم\",\n    \"story\": \"القصة\",\n    \"personality\": \"الصفات\",\n    \"scene\": \"المشهد\",\n    \"imagePrompt\": \"وصف الصورة بالإنجليزية\"\n\x7d"

/-- The prompt of the generate handler. -/
def generatePrompt (req : GenerateRequest) : JsString :=
  match req.base_story with
  | some story =>
    if story.isEmpty then createPrompt req.type else elaboratePrompt req.name req.type story
  | none => createPrompt req.type

/-- The value the generate handler uses when `JSON.parse` throws. -/
def generateFallback (response : JsString) (name : Option JsString) : JsVal :=
  .obj [(utf16 "name", .str (orElse name (utf16 "شخصية جديدة"))),
        (utf16 "story", .str response),
        (utf16 "personality", .str (utf16 "ذكي، مرح، طموح")),
        (utf16 "scene", .str (utf16 "مكان مناسب")),
        (utf16 "imagePrompt", .str (orElse name (utf16 "character") ++ utf16 " portrait"))]

/-- The inner `try`/`catch` of the generate handler (`characterData`). -/
def parseGenerateResponse (response : JsString) (name : Option JsString) : JsVal :=
  match jsonParse (trim (stripFences response)) with
  | .ok v => v
  | .error _ => generateFallback response name

/-- The address of the avatar service, up to `seed=`. -/
def avatarBase : JsString := utf16 "https://api.dicebear.com/7.x/avataaars-neutral/svg?seed="

/-- The assignment `characterData.image = url` as the reply shows it: an object gets
or overwrites its `image` property; on an array the property is set but `res.json`
does not serialise it; on a primitive the assignment has no effect (the module is not
in strict mode). -/
def assignImage (characterData : JsVal) (url : JsVal) : JsVal :=
  match characterData with
  | .obj props => .obj (setProp (utf16 "image") url props)
  | v => v

/-- The handler of `POST /api/generate`. It does not touch the memory store. -/
def generate (gen : Gateway) (numStr : JsString → JsString) (req : GenerateRequest) :
    GenerateResponse :=
  match gen none (generatePrompt req) with
  | none => .failed (utf16 "خطأ في التوليد")
  | some response =>
    let characterData := parseGenerateResponse response req.name
    match getProp characterData (utf16 "name") with
    | .error _ => .failed (utf16 "خطأ في التوليد")
    | .ok name =>
      match toStringJs numStr name with
      | .error _ => .failed (utf16 "خطأ في التوليد")
      | .ok seed =>
        match encodeURIComponent seed with
        | .error _ => .failed (utf16 "خطأ في التوليد")
        | .ok encoded => .ok (assignImage characterData (.str (avatarBase ++ encoded)))

/-! ## Sequences of requests -/

/-- A request together with the behaviour of the provider and the clock while it is
served. -/
inductive Request where
  | chat (gen : Gateway) (now : Nat) (req : ChatRequest)
  | train (gen : Gateway) (req : TrainRequest)

/-- The store after one request. -/
def step (mem : Store) : Request → Store
  | .chat gen now req => (chat gen now req mem).1
  | .train gen req => (train gen req mem).1

/-- The store after a sequence of requests, served in order. -/
def run (mem : Store) (reqs : List Request) : Store := reqs.foldl step mem

/-! ## Notions used by the properties -/

/-- The turn sequence stored for a name, empty when the store has no entry for it. -/
def storedTurns (mem : Store) (name : JsString) : List Turn :=
  match mapGet mem name with
  | some entry => entry.conversations
  | none => []

/-- One chat request as served: provider behaviour, clock and body. -/
structure ChatCall where
  gen : Gateway
  now : Nat
  req : ChatRequest

/-- Serve chat requests in order: the final store and the replies, first to last. -/
def serveChats (mem : Store) : List ChatCall → Store × List ChatResponse
  | [] => (mem, [])
  | c :: cs =>
    ((serveChats (chat c.gen c.now c.req mem).1 cs).1,
     (chat c.gen c.now c.req mem).2 :: (serveChats (chat c.gen c.now c.req mem).1 cs).2)

/-- The `text` field of a chat reply, `undefined` on the 500 reply. -/
def ChatResponse.replyText : ChatResponse → JsVal
  | .ok text _ _ _ => text
  | .failed _ _ => .undefined

/-- The turn of a chat request answered with `reply`: the request message, the reply
text and the time of the request. -/
def turnOf (c : ChatCall) (reply : ChatResponse) : Turn :=
  { user := c.req.message, ai := reply.replyText, timestamp := c.now }

/-- Every entry of the store holds at most 50 turns. -/
def Bounded (mem : Store) : Prop := ∀ p ∈ mem, p.2.conversations.length ≤ 50

/-- An object with own properties `text`, `emotion`, `scene` and `imagePrompt`. -/
def hasReplyShape : JsVal → Bool
  | .obj props =>
    hasOwn (utf16 "text") props && hasOwn (utf16 "emotion") props &&
      hasOwn (utf16 "scene") props && hasOwn (utf16 "imagePrompt") props
  | _ => false

/-- The sentiment words the chat prompt lists for `emotion`. -/
def sentiments : List JsString :=
  [utf16 "سعيد", utf16 "حزين", utf16 "غاضب", utf16 "متفاجئ", utf16 "محايد"]

/-- The value is one of the sentiment words. -/
def isSentiment : JsVal → Bool
  | .str s => decide (s ∈ sentiments)
  | _ => false

/-- A parse result that is not a fuel exhaustion and, when it is a value, leaves at most
`bound` code units of input. -/
def ParsedWithin (bound : Nat) (r : Except ParseStop (JsVal × JsString)) : Prop :=
  r ≠ .error .outOfFuel ∧ ∀ v out, r = .ok (v, out) → out.length ≤ bound

/-- The values on which a member access throws: `null` and `undefined`. -/
def isNullish : JsVal → Bool
  | .undefined => true
  | .null => true
  | _ => false

/-- The member access `v.k` on a value that is not nullish. -/
def fieldOf (v : JsVal) (k : JsString) : JsVal :=
  match getProp v k with
  | .ok x => x
  | .error _ => .undefined

/-! ## Sample inputs -/

/-- A character named `Layla`. -/
def sampleCharacter : Character :=
  { name := utf16 "Layla", personality := utf16 "kind", story := utf16 "a story",
    scene := utf16 "garden" }

/-- A chat request for `Layla` with an empty history. -/
def sampleChat : ChatRequest :=
  { character := sampleCharacter, message := utf16 "مرحبا", history := [], apiKey := none }

/-- A train request for `Layla`. -/
def sampleTrain : TrainRequest := { character := sampleCharacter }

/-- A provider that answers every prompt with the given text. -/
def constGateway (text : String) : Gateway := fun _ _ => some (utf16 text)

/-- A provider whose every call throws. -/
def failingGateway : Gateway := fun _ _ => none

/-- A provider that answers with the text `story`, whatever the prompt. -/
def echoGateway (story : JsString) : Gateway := fun _ _ => some story

/-- A chat request served by a provider that answers `hi` at time `0`. -/
def sampleCall : ChatCall := { gen := constGateway "hi", now := 0, req := sampleChat }

/-- The turn `sampleCall` appends. -/
def sampleTurn : Turn := { user := utf16 "مرحبا", ai := .str (utf16 "hi"), timestamp := 0 }

/-- A well-formed prompt of 51 code units: 49 letters `a` and the surrogate pair of
U+1F600, which occupies the code units 49 and 50. -/
def straddlingPrompt : JsString := List.replicate 49 0x61 ++ [0xD83D, 0xDE00]

/-- A generate request with `base_story` set and no `name`. -/
def elaborateRequest : GenerateRequest :=
  { action := none, name := none, type := utf16 "fictional", base_story := some (utf16 "abc") }

/-! ## The store as a map -/

set_option maxRecDepth 1000000

theorem mapGet_mapSet_self (m : Store) (k : JsString) (e : MemoryEntry) :
    mapGet (mapSet m k e) k = some e := by
  induction m with
  | nil => simp [mapSet, mapGet]
  | cons p rest ih =>
    obtain ⟨k2, e2⟩ := p
    by_cases h : k2 = k <;> simp [mapSet, mapGet, h, ih]

theorem mapGet_mapSet_ne (m : Store) (k k2 : JsString) (e : MemoryEntry) (h : k2 ≠ k) :
    mapGet (mapSet m k e) k2 = mapGet m k2 := by
  induction m with
  | nil => simp [mapSet, mapGet, Ne.symm h]
  | cons p rest ih =>
    obtain ⟨k3, e3⟩ := p
    by_cases h3 : k3 = k
    · subst h3
      simp [mapSet, mapGet, Ne.symm h]
    · by_cases h4 : k3 = k2
      · subst h4
        simp [mapSet, mapGet, h3]
      · simp [mapSet, mapGet, h3, h4, ih]

theorem mapSet_of_absent (m : Store) (k : JsString) (e : MemoryEntry)
    (h : mapGet m k = none) : mapSet m k e = m ++ [(k, e)] := by
  induction m with
  | nil => rfl
  | cons p rest ih =>
    obtain ⟨k2, e2⟩ := p
    by_cases h2 : k2 = k
    · simp [mapGet, h2] at h
    · simp [mapGet, h2] at h
      simp [mapSet, h2, ih h]

theorem mapSet_length_of_present (m : Store) (k : JsString) (e e0 : MemoryEntry)
    (h : mapGet m k = some e0) : (mapSet m k e).length = m.length := by
  induction m with
  | nil => simp [mapGet] at h
  | cons p rest ih =>
    obtain ⟨k2, e2⟩ := p
    by_cases h2 : k2 = k
    · simp [mapSet, h2]
    · simp [mapGet, h2] at h
      simp [mapSet, h2, ih h]

theorem mem_mapSet (m : Store) (k : JsString) (e : MemoryEntry) (p : JsString × MemoryEntry)
    (h : p ∈ mapSet m k e) : p ∈ m ∨ p.2 = e := by
  induction m with
  | nil =>
    simp [mapSet] at h
    exact Or.inr (by rw [h])
  | cons q rest ih =>
    obtain ⟨k2, e2⟩ := q
    by_cases h2 : k2 = k
    · simp [mapSet, h2] at h
      rcases h with h | h
      · exact Or.inr (by rw [h])
      · exact Or.inl (List.mem_cons_of_mem _ h)
    · simp [mapSet, h2] at h
      rcases h with h | h
      · exact Or.inl (by rw [h]; exact List.mem_cons_self _ _)
      · rcases ih h with h3 | h3
        · exact Or.inl (List.mem_cons_of_mem _ h3)
        · exact Or.inr h3

theorem mapGet_getOrCreate_self (mem : Store) (character : Character) :
    ∃ entry, mapGet (getOrCreate mem character) character.name = some entry ∧
      entry.personality = (match mapGet mem character.name with
        | some e => e.personality | none => character.personality) ∧
      entry.story = (match mapGet mem character.name with
        | some e => e.story | none => character.story) ∧
      entry.conversations = storedTurns mem character.name := by
  unfold getOrCreate mapHas storedTurns
  cases h : mapGet mem character.name with
  | none => simp [mapGet_mapSet_self, freshEntry]
  | some e => simp [h]

theorem mapGet_getOrCreate_ne (mem : Store) (character : Character) (k : JsString)
    (h : k ≠ character.name) : mapGet (getOrCreate mem character) k = mapGet mem k := by
  unfold getOrCreate
  split
  · rfl
  · exact mapGet_mapSet_ne _ _ _ _ h

theorem getOrCreate_of_present (mem : Store) (character : Character) (e : MemoryEntry)
    (h : mapGet mem character.name = some e) : getOrCreate mem character = mem := by
  simp [getOrCreate, mapHas, h]

theorem getOrCreate_of_absent (mem : Store) (character : Character)
    (h : mapGet mem character.name = none) :
    getOrCreate mem character = mem ++ [(character.name, freshEntry character)] := by
  simp [getOrCreate, mapHas, h, mapSet_of_absent]

/-! ## The chat handler, case by case -/

theorem getProp_of_nullish (v : JsVal) (k : JsString) (h : isNullish v = true) :
    getProp v k = .error .typeError := by
  cases v <;> simp_all [isNullish, getProp]

theorem getProp_of_not_nullish (v : JsVal) (k : JsString) (h : isNullish v = false) :
    getProp v k = .ok (fieldOf v k) := by
  cases v <;> simp_all [isNullish, getProp, fieldOf]

/-- The gateway throws: the reply is the fixed 500 reply and the store is the one
left by the get-or-create statement. -/
theorem chat_of_gateway_failed (gen : Gateway) (now : Nat) (req : ChatRequest) (mem : Store)
    (h : gen (credentialOf req.apiKey)
      (chatContext req.character req.history req.message) = none) :
    chat gen now req mem = (getOrCreate mem req.character, chatError) := by
  simp [chat, h]

/-- The gateway answers and the parsed value is `null`: reading `imagePrompt` throws. -/
theorem chat_of_nullish (gen : Gateway) (now : Nat) (req : ChatRequest) (mem : Store)
    (response : JsString)
    (h : gen (credentialOf req.apiKey)
      (chatContext req.character req.history req.message) = some response)
    (hn : isNullish (parseChatResponse response req.character) = true) :
    chat gen now req mem = (getOrCreate mem req.character, chatError) := by
  simp [chat, h, getProp_of_nullish _ _ hn]

/-- The gateway answers and the parsed value is not `null`: the turn is appended to
the entry of the name and the reply has status 200. -/
theorem chat_of_value (gen : Gateway) (now : Nat) (req : ChatRequest) (mem : Store)
    (response : JsString) (entry : MemoryEntry)
    (h : gen (credentialOf req.apiKey)
      (chatContext req.character req.history req.message) = some response)
    (hn : isNullish (parseChatResponse response req.character) = false)
    (he : mapGet (getOrCreate mem req.character) req.character.name = some entry) :
    chat gen now req mem =
      (mapSet (getOrCreate mem req.character) req.character.name
        { entry with
          conversations := (appendTurn entry.conversations
            (Turn.mk req.message
              (fieldOf (parseChatResponse response req.character) (utf16 "text")) now)) },
       .ok (fieldOf (parseChatResponse response req.character) (utf16 "text"))
         (fieldOf (parseChatResponse response req.character) (utf16 "emotion"))
         (fieldOf (parseChatResponse response req.character) (utf16 "scene"))
         (generateImage
           (fieldOf (parseChatResponse response req.character) (utf16 "imagePrompt")))) := by
  simp [chat, h, he, getProp_of_not_nullish _ _ hn]

/-- A chat reply with status 200 comes from a gateway answer whose parsed value is not
`null`. -/
theorem chat_ok_inv (gen : Gateway) (now : Nat) (req : ChatRequest) (mem : Store)
    (h : (chat gen now req mem).2.status = 200) :
    ∃ response, gen (credentialOf req.apiKey)
        (chatContext req.character req.history req.message) = some response ∧
      isNullish (parseChatResponse response req.character) = false := by
  cases hg : gen (credentialOf req.apiKey)
      (chatContext req.character req.history req.message) with
  | none =>
    rw [chat_of_gateway_failed gen now req mem hg] at h
    simp [chatError, ChatResponse.status] at h
  | some response =>
    refine ⟨response, rfl, ?_⟩
    cases hn : isNullish (parseChatResponse response req.character) with
    | false => rfl
    | true =>
      rw [chat_of_nullish gen now req mem response hg hn] at h
      simp [chatError, ChatResponse.status] at h

/-! ## The bound on the turn sequence -/

theorem sliceLast_length_le {α : Type} (n : Nat) (xs : List α) :
    (sliceLast n xs).length ≤ n := by
  simp only [sliceLast, List.length_drop]
  omega

theorem appendTurn_length_le (conversations : List Turn) (turn : Turn) :
    (appendTurn conversations turn).length ≤ 50 := by
  unfold appendTurn
  split
  · exact sliceLast_length_le 50 _
  · omega

theorem bounded_mapSet (m : Store) (k : JsString) (e : MemoryEntry) (hm : Bounded m)
    (he : e.conversations.length ≤ 50) : Bounded (mapSet m k e) := by
  intro p hp
  rcases mem_mapSet m k e p hp with h | h
  · exact hm p h
  · rw [h]
    exact he

theorem bounded_getOrCreate (mem : Store) (character : Character) (hm : Bounded mem) :
    Bounded (getOrCreate mem character) := by
  unfold getOrCreate
  split
  · exact hm
  · exact bounded_mapSet _ _ _ hm (by simp [freshEntry])

theorem bounded_chat (gen : Gateway) (now : Nat) (req : ChatRequest) (mem : Store)
    (hm : Bounded mem) : Bounded (chat gen now req mem).1 := by
  cases hg : gen (credentialOf req.apiKey)
      (chatContext req.character req.history req.message) with
  | none =>
    rw [chat_of_gateway_failed gen now req mem hg]
    exact bounded_getOrCreate mem _ hm
  | some response =>
    cases hn : isNullish (parseChatResponse response req.character) with
    | true =>
      rw [chat_of_nullish gen now req mem response hg hn]
      exact bounded_getOrCreate mem _ hm
    | false =>
      obtain ⟨entry, he, -⟩ := mapGet_getOrCreate_self mem req.character
      rw [chat_of_value gen now req mem response entry hg hn he]
      exact bounded_mapSet _ _ _ (bounded_getOrCreate mem _ hm) (appendTurn_length_le _ _)

theorem bounded_train (gen : Gateway) (req : TrainRequest) (mem : Store) (hm : Bounded mem) :
    Bounded (train gen req mem).1 := by
  cases h : gen none (trainPrompt req.character) with
  | none =>
    simp only [train, h]
    exact hm
  | some training =>
    simp only [train, h]
    exact bounded_mapSet _ _ _ hm (by simp)

theorem bounded_step (mem : Store) (r : Request) (hm : Bounded mem) : Bounded (step mem r) := by
  cases r with
  | chat gen now req => exact bounded_chat gen now req mem hm
  | train gen req => exact bounded_train gen req mem hm

theorem bounded_run (reqs : List Request) (mem : Store) (hm : Bounded mem) :
    Bounded (run mem reqs) := by
  induction reqs generalizing mem with
  | nil => exact hm
  | cons r rest ih => exact ih (step mem r) (bounded_step mem r hm)

/-- C1. In every store reachable from the empty store by a sequence of chat and train
requests, succeeding or failing, for any character names, every memory entry holds at
most 50 conversation turns. -/
theorem memory_window_invariant (reqs : List Request) (name : JsString) (entry : MemoryEntry)
    (h : (name, entry) ∈ run [] reqs) : entry.conversations.length ≤ 50 :=
  bounded_run reqs [] (by intro p hp; cases hp) (name, entry) h

/-! ## The fuel of the JSON parser -/

theorem dropWhile_length_le {α : Type} (p : α → Bool) (xs : List α) :
    (xs.dropWhile p).length ≤ xs.length :=
  (List.dropWhile_sublist p).length_le

theorem skipWs_length_le (cs : JsString) : (skipWs cs).length ≤ cs.length :=
  dropWhile_length_le _ _

theorem parseStringBody_length (n : Nat) : ∀ (cs s out : JsString), cs.length ≤ n →
    parseStringBody cs = some (s, out) → out.length ≤ cs.length := by
  induction n with
  | zero =>
    intro cs s out hlen h
    have : cs = [] := List.length_eq_zero.mp (Nat.le_zero.mp hlen)
    subst this
    simp [parseStringBody] at h
  | succ n ih =>
    intro cs s out hlen h
    unfold parseStringBody at h
    repeat' split at h
    all_goals cases h
    all_goals first
      | (simp only [List.length_cons]; omega)
      | (rename_i hrec
         have hb := fun hl => ih _ _ _ hl hrec
         simp only [List.length_cons] at *
         have := hb (by omega)
         omega)

theorem lexInt_length (cs lexeme out : JsString) (h : lexInt cs = some (lexeme, out)) :
    out.length ≤ cs.length := by
  unfold lexInt at h
  repeat' split at h
  all_goals cases h
  all_goals first
    | (simp only [List.length_cons]; omega)
    | (refine le_trans (dropWhile_length_le _ _) ?_
       simp only [List.length_cons]
       omega)

theorem lexFraction_length (cs lexeme out : JsString)
    (h : lexFraction cs = some (lexeme, out)) : out.length ≤ cs.length := by
  unfold lexFraction at h
  repeat' split at h
  all_goals cases h
  all_goals first
    | (simp only [List.length_cons, List.length_nil]; omega)
    | (refine le_trans (dropWhile_length_le _ _) ?_
       simp only [List.length_cons]
       omega)

theorem lexExponent_length (cs lexeme out : JsString)
    (h : lexExponent cs = some (lexeme, out)) : out.length ≤ cs.length := by
  unfold lexExponent at h
  repeat' split at h
  all_goals cases h
  all_goals first
    | (simp only [List.length_cons, List.length_nil]; omega)
    | (refine le_trans (dropWhile_length_le _ _) ?_
       simp only [List.length_cons]
       omega)

theorem lexSign_length (cs : JsString) : (lexSign cs).2.length ≤ cs.length := by
  unfold lexSign
  split
  · simp
  · split <;> simp

theorem lexNumber_length (cs lexeme out : JsString)
    (h : lexNumber cs = some (lexeme, out)) : out.length ≤ cs.length := by
  unfold lexNumber at h
  split at h
  · cases h
  · next i r1 hi =>
    split at h
    · cases h
    · next f r2 hf =>
      split at h
      · cases h
      · next e r3 he =>
        cases h
        have h0 := lexSign_length cs
        have h1 := lexInt_length _ _ _ hi
        have h2 := lexFraction_length _ _ _ hf
        have h3 := lexExponent_length _ _ _ he
        omega

theorem parsedWithin_malformed (bound : Nat) : ParsedWithin bound (.error .malformed) :=
  ⟨by simp, by simp⟩

theorem parsedWithin_ok (bound : Nat) (v : JsVal) (out : JsString) (h : out.length ≤ bound) :
    ParsedWithin bound (.ok (v, out)) := by
  refine ⟨by simp, ?_⟩
  intro v2 out2 h2
  cases h2
  exact h

theorem parsedWithin_mono (b1 b2 : Nat) (r : Except ParseStop (JsVal × JsString))
    (h : ParsedWithin b1 r) (hb : b1 ≤ b2) : ParsedWithin b2 r :=
  ⟨h.1, fun v out hr => le_trans (h.2 v out hr) hb⟩

/-- With fuel above twice the input length no parser function stops for lack of fuel,
and a parsed value leaves no more input than there was. -/
theorem parse_fuel (fuel : Nat) :
    (∀ cs, 2 * cs.length + 1 ≤ fuel → ParsedWithin cs.length (parseValue fuel cs)) ∧
    (∀ cs acc, 2 * cs.length + 2 ≤ fuel →
      ParsedWithin cs.length (parseElements fuel cs acc)) ∧
    (∀ cs acc, 2 * cs.length + 2 ≤ fuel →
      ParsedWithin cs.length (parseMembers fuel cs acc)) := by
  induction fuel with
  | zero =>
    refine ⟨?_, ?_, ?_⟩ <;> intros <;> omega
  | succ n ih =>
    obtain ⟨ihV, ihE, ihM⟩ := ih
    refine ⟨?_, ?_, ?_⟩
    · intro cs hf
      unfold parseValue
      have hs := skipWs_length_le cs
      split
      · exact parsedWithin_malformed _
      · next c rest hw =>
        rw [hw, List.length_cons] at hs
        have hr := skipWs_length_le rest
        split
        · split
          · exact parsedWithin_malformed _
          · next d rest2 hw2 =>
            rw [hw2, List.length_cons] at hr
            split
            · exact parsedWithin_ok _ _ _ (by omega)
            · exact parsedWithin_mono _ _ _
                (ihM (d :: rest2) [] (by simp only [List.length_cons]; omega))
                (by simp only [List.length_cons]; omega)
        · split
          · split
            · exact parsedWithin_malformed _
            · next d rest2 hw2 =>
              rw [hw2, List.length_cons] at hr
              split
              · exact parsedWithin_ok _ _ _ (by omega)
              · exact parsedWithin_mono _ _ _
                  (ihE (d :: rest2) [] (by simp only [List.length_cons]; omega))
                  (by simp only [List.length_cons]; omega)
          · split
            · split
              · next s out hp =>
                have := parseStringBody_length _ _ _ _ (le_refl _) hp
                exact parsedWithin_ok _ _ _ (by omega)
              · exact parsedWithin_malformed _
            · split
              · exact parsedWithin_ok _ _ _ (by simp only [List.length_drop]; omega)
              · split
                · exact parsedWithin_ok _ _ _ (by simp only [List.length_drop]; omega)
                · split
                  · exact parsedWithin_ok _ _ _ (by simp only [List.length_drop]; omega)
                  · split
                    · next lexeme out hl =>
                      have := lexNumber_length _ _ _ hl
                      simp only [List.length_cons] at this
                      exact parsedWithin_ok _ _ _ (by omega)
                    · exact parsedWithin_malformed _
    · intro cs acc hf
      unfold parseElements
      have hv := ihV cs (by omega)
      split
      · next e he =>
        refine ⟨?_, by simp⟩
        intro h
        cases h
        exact hv.1 he
      · next v out he =>
        have ho := hv.2 v out he
        have hs := skipWs_length_le out
        split
        · exact parsedWithin_malformed _
        · next d rest hw =>
          rw [hw, List.length_cons] at hs
          split
          · exact parsedWithin_mono _ _ _ (ihE rest _ (by omega)) (by omega)
          · split
            · exact parsedWithin_ok _ _ _ (by omega)
            · exact parsedWithin_malformed _
    · intro cs acc hf
      unfold parseMembers
      have hs := skipWs_length_le cs
      split
      · exact parsedWithin_malformed _
      · next q rest hw =>
        rw [hw, List.length_cons] at hs
        split
        · split
          · exact parsedWithin_malformed _
          · next key out hp =>
            have hk := parseStringBody_length _ _ _ _ (le_refl _) hp
            have hs2 := skipWs_length_le out
            split
            · exact parsedWithin_malformed _
            · next colon rest2 hw2 =>
              rw [hw2, List.length_cons] at hs2
              split
              · have hv := ihV rest2 (by omega)
                split
                · next e he =>
                  refine ⟨?_, by simp⟩
                  intro h
                  cases h
                  exact hv.1 he
                · next v out2 he =>
                  have ho := hv.2 v out2 he
                  have hs3 := skipWs_length_le out2
                  split
                  · exact parsedWithin_malformed _
                  · next d rest3 hw3 =>
                    rw [hw3, List.length_cons] at hs3
                    split
                    · exact parsedWithin_mono _ _ _ (ihM rest3 _ (by omega)) (by omega)
                    · split
                      · exact parsedWithin_ok _ _ _ (by omega)
                      · exact parsedWithin_malformed _
              · exact parsedWithin_malformed _
        · exact parsedWithin_malformed _

/-- The fuel `jsonParse` gives to `parseValue` is never exhausted: a failure of
`jsonParse` is a malformed text. -/
theorem parseValue_fuel (s : JsString) :
    parseValue (2 * s.length + 2) s ≠ .error .outOfFuel :=
  ((parse_fuel (2 * s.length + 2)).1 s (by omega)).1

/-! ## The sliding window -/

theorem sliceLast_of_length_le {α : Type} (n : Nat) (xs : List α) (h : xs.length ≤ n) :
    sliceLast n xs = xs := by
  simp [sliceLast, Nat.sub_eq_zero_of_le h]

theorem appendTurn_eq (conversations : List Turn) (turn : Turn) :
    appendTurn conversations turn = sliceLast 50 (conversations ++ [turn]) := by
  unfold appendTurn
  split
  · rfl
  · rw [sliceLast_of_length_le]
    omega

theorem sliceLast_append_sliceLast {α : Type} (n : Nat) (xs ys : List α) :
    sliceLast n (sliceLast n xs ++ ys) = sliceLast n (xs ++ ys) := by
  by_cases h : xs.length ≤ n
  · rw [sliceLast_of_length_le n xs h]
  · have hlen : (List.drop (xs.length - n) xs).length = n := by
      simp only [List.length_drop]
      omega
    have hx : xs ++ ys = List.take (xs.length - n) xs ++ (List.drop (xs.length - n) xs ++ ys) := by
      rw [← List.append_assoc, List.take_append_drop]
    have ht : (List.take (xs.length - n) xs).length = xs.length - n := by
      simp only [List.length_take]
      omega
    unfold sliceLast
    rw [List.length_append, hlen]
    conv_rhs => rw [hx]
    have hk : (List.take (xs.length - n) xs ++ (List.drop (xs.length - n) xs ++ ys)).length - n =
        (List.take (xs.length - n) xs).length + (n + ys.length - n) := by
      simp only [List.length_append, List.length_take, List.length_drop]
      omega
    rw [hk, List.drop_append]

theorem serveChats_length (mem : Store) (calls : List ChatCall) :
    (serveChats mem calls).2.length = calls.length := by
  induction calls generalizing mem with
  | nil => rfl
  | cons c cs ih => simp [serveChats, ih]

/-- One chat request answered with status 200 appends its turn to the turns stored for
its name. -/
theorem storedTurns_chat (c : ChatCall) (mem : Store)
    (hok : (chat c.gen c.now c.req mem).2.status = 200) :
    storedTurns (chat c.gen c.now c.req mem).1 c.req.character.name =
      appendTurn (storedTurns mem c.req.character.name)
        (turnOf c (chat c.gen c.now c.req mem).2) := by
  obtain ⟨response, hg, hn⟩ := chat_ok_inv c.gen c.now c.req mem hok
  obtain ⟨entry, he, -, -, hc⟩ := mapGet_getOrCreate_self mem c.req.character
  rw [chat_of_value c.gen c.now c.req mem response entry hg hn he]
  simp [storedTurns, mapGet_mapSet_self, turnOf, ChatResponse.replyText, hc]

theorem storedTurns_serveChats (name : JsString) (calls : List ChatCall) (mem : Store)
    (hlen : (storedTurns mem name).length ≤ 50)
    (hname : ∀ c ∈ calls, c.req.character.name = name)
    (hok : ∀ r ∈ (serveChats mem calls).2, r.status = 200) :
    storedTurns (serveChats mem calls).1 name =
      sliceLast 50 (storedTurns mem name ++ List.zipWith turnOf calls (serveChats mem calls).2) := by
  induction calls generalizing mem with
  | nil => simp [serveChats, sliceLast_of_length_le _ _ hlen]
  | cons c cs ih =>
    have hc : c.req.character.name = name := hname c (List.mem_cons_self _ _)
    have hok1 : (chat c.gen c.now c.req mem).2.status = 200 :=
      hok _ (by simp [serveChats])
    have hstep := storedTurns_chat c mem hok1
    rw [hc] at hstep
    have ih2 := ih (chat c.gen c.now c.req mem).1
      (by rw [hstep]; exact appendTurn_length_le _ _)
      (fun d hd => hname d (List.mem_cons_of_mem _ hd))
      (fun r hr => hok r (by simp [serveChats, hr]))
    simp only [serveChats, List.zipWith_cons_cons]
    rw [ih2, hstep, appendTurn_eq, sliceLast_append_sliceLast]
    simp

theorem getLast?_zipWith_of_length_eq {α β γ : Type} (f : α → β → γ) (xs : List α)
    (ys : List β) (hlen : xs.length = ys.length) (hne : xs ≠ []) :
    ∃ x y, xs.getLast? = some x ∧ ys.getLast? = some y ∧
      (List.zipWith f xs ys).getLast? = some (f x y) := by
  induction xs generalizing ys with
  | nil => exact absurd rfl hne
  | cons x xs ih =>
    cases ys with
    | nil => simp at hlen
    | cons y ys =>
      cases xs with
      | nil =>
        cases ys with
        | nil => exact ⟨x, y, rfl, rfl, rfl⟩
        | cons z zs => simp at hlen
      | cons x2 xs2 =>
        cases ys with
        | nil => simp at hlen
        | cons y2 ys2 =>
          obtain ⟨a, b, ha, hb, hab⟩ := ih (y2 :: ys2) (by simpa using hlen) (by simp)
          exact ⟨a, b, by simpa using ha, by simpa using hb, by simpa using hab⟩

/-- C2. Starting from a store with no entry for a name, after `N` chat requests for
that name, each answered with status 200, the turns stored for the name are the
appended turns without their first `N - 50` (the most recent `min N 50`, in the order
they were appended), their number is `min N 50`, and for `N ≥ 1` the last one is the
turn of the last request. -/
theorem chat_sliding_window (mem : Store) (name : JsString) (calls : List ChatCall)
    (hnew : mapGet mem name = none)
    (hname : ∀ c ∈ calls, c.req.character.name = name)
    (hok : ∀ r ∈ (serveChats mem calls).2, r.status = 200) :
    (List.zipWith turnOf calls (serveChats mem calls).2).length = calls.length ∧
    storedTurns (serveChats mem calls).1 name =
      (List.zipWith turnOf calls (serveChats mem calls).2).drop (calls.length - 50) ∧
    (storedTurns (serveChats mem calls).1 name).length = min calls.length 50 ∧
    (calls ≠ [] → ∃ c r, calls.getLast? = some c ∧ (serveChats mem calls).2.getLast? = some r ∧
      (storedTurns (serveChats mem calls).1 name).getLast? = some (turnOf c r)) := by
  have h0 : storedTurns mem name = [] := by simp [storedTurns, hnew]
  have hlen : (List.zipWith turnOf calls (serveChats mem calls).2).length = calls.length := by
    simp [serveChats_length]
  have hmain := storedTurns_serveChats name calls mem (by simp [h0]) hname hok
  rw [h0, List.nil_append] at hmain
  have hstored : storedTurns (serveChats mem calls).1 name =
      (List.zipWith turnOf calls (serveChats mem calls).2).drop (calls.length - 50) := by
    rw [hmain, sliceLast, hlen]
  refine ⟨hlen, hstored, ?_, ?_⟩
  · rw [hstored, List.length_drop, hlen]
    omega
  · intro hne
    obtain ⟨c, r, hc, hr, hcr⟩ := getLast?_zipWith_of_length_eq turnOf calls
      (serveChats mem calls).2 (serveChats_length mem calls).symm hne
    refine ⟨c, r, hc, hr, ?_⟩
    rw [hstored, List.getLast?_drop, hlen, if_neg, hcr]
    have : 0 < calls.length := List.length_pos.mpr hne
    omega

/-! ## Image reference resolution -/

theorem not_surrogate_of_unreserved (c : CodeUnit) (h : isUriUnreserved c = true) :
    isHighSurrogate c = false ∧ isLowSurrogate c = false := by
  simp only [isUriUnreserved, isHighSurrogate, isLowSurrogate, Bool.or_eq_true, Bool.and_eq_true,
    decide_eq_true_eq, Bool.and_eq_false_imp, decide_eq_false_iff_not] at *
  omega

theorem not_high_of_low (c : CodeUnit) (h : isLowSurrogate c = true) :
    isHighSurrogate c = false := by
  simp only [isHighSurrogate, isLowSurrogate, Bool.and_eq_true,
    decide_eq_true_eq, Bool.and_eq_false_imp, decide_eq_false_iff_not] at *
  omega

/-- The function `encodeURIComponent` returns exactly on the strings without an
unpaired surrogate. -/
theorem encodeURIComponent_ok_iff (s : JsString) :
    (∃ encoded, encodeURIComponent s = .ok encoded) ↔ isWellFormed s = true := by
  induction s using isWellFormed.induct with
  | case1 => simp [encodeURIComponent, isWellFormed]
  | case2 c hc =>
    have hu : isUriUnreserved c = false := by
      cases h : isUriUnreserved c with
      | false => rfl
      | true => simp [(not_surrogate_of_unreserved c h).1] at hc
    cases hl : isLowSurrogate c <;> simp [encodeURIComponent, isWellFormed, hc, hu, hl]
  | case3 c hc d rest ih =>
    have hu : isUriUnreserved c = false := by
      cases h : isUriUnreserved c with
      | false => rfl
      | true => simp [(not_surrogate_of_unreserved c h).1] at hc
    have hl : isLowSurrogate c = false := by
      cases h : isLowSurrogate c with
      | false => rfl
      | true => simp [not_high_of_low c h] at hc
    cases hd : isLowSurrogate d with
    | false => simp [encodeURIComponent, isWellFormed, hc, hu, hl, hd]
    | true =>
      simp only [encodeURIComponent, isWellFormed, hc, hu, hl, hd, if_true, Bool.true_and,
        Bool.false_eq_true, if_false]
      rw [← ih]
      cases encodeURIComponent rest <;> simp [Except.map]
  | case4 c rest hc hl =>
    have hu : isUriUnreserved c = false := by
      cases h : isUriUnreserved c with
      | false => rfl
      | true => simp [(not_surrogate_of_unreserved c h).2] at hl
    unfold encodeURIComponent isWellFormed
    simp [hc, hl, hu]
  | case5 c rest hc hl ih =>
    unfold encodeURIComponent isWellFormed
    simp only [hc, hl, if_false, Bool.false_eq_true]
    rw [← ih]
    cases isUriUnreserved c <;> cases encodeURIComponent rest <;> simp [Except.map]

/-- C5, amended. For every prompt string whose first 50 code units have no unpaired
surrogate, `generateImage` returns the placeholder address followed by the
percent-encoding of those code units, which are the whole prompt when it has at most
50 code units. -/
theorem generateImage_of_wellFormed (prompt : JsString)
    (h : isWellFormed (substring0 prompt 50) = true) :
    ∃ encoded, encodeURIComponent (substring0 prompt 50) = .ok encoded ∧
      generateImage (.str prompt) = .str (placeholderBase ++ encoded) ∧
      (substring0 prompt 50).length = min 50 prompt.length ∧
      substring0 prompt 50 <+: prompt ∧
      (prompt.length ≤ 50 → substring0 prompt 50 = prompt) := by
  obtain ⟨encoded, he⟩ := (encodeURIComponent_ok_iff _).mpr h
  refine ⟨encoded, he, by simp [generateImage, he], by simp [substring0], ?_, ?_⟩
  · exact List.take_prefix 50 prompt
  · intro hlen
    exact List.take_of_length_le hlen

/-- C5, witness. The prompt `Layla in garden` is well formed and shorter than 50 code
units. -/
theorem generateImage_of_wellFormed_witness :
    isWellFormed (substring0 (utf16 "Layla in garden") 50) = true ∧
    ∃ encoded, encodeURIComponent (substring0 (utf16 "Layla in garden") 50) = .ok encoded ∧
      generateImage (.str (utf16 "Layla in garden")) = .str (placeholderBase ++ encoded) ∧
      (substring0 (utf16 "Layla in garden") 50).length = min 50 (utf16 "Layla in garden").length ∧
      substring0 (utf16 "Layla in garden") 50 <+: utf16 "Layla in garden" ∧
      ((utf16 "Layla in garden").length ≤ 50 →
        substring0 (utf16 "Layla in garden") 50 = utf16 "Layla in garden") :=
  ⟨by decide, generateImage_of_wellFormed (utf16 "Layla in garden") (by decide)⟩

/-- C5, counterexample. A prompt of 49 letters followed by one character outside the
Basic Multilingual Plane is well formed and has 50 characters, yet `generateImage`
returns `null`: the truncation keeps only the first half of the surrogate pair. -/
theorem generateImage_null_counterexample :
    isWellFormed straddlingPrompt = true ∧ straddlingPrompt.length = 51 ∧
    substring0 straddlingPrompt 50 = List.replicate 49 0x61 ++ [0xD83D] ∧
    encodeURIComponent (substring0 straddlingPrompt 50) = .error .uriError ∧
    generateImage (.str straddlingPrompt) = .null :=
  ⟨by decide, by decide, by decide, by rfl, by rfl⟩

/-! ## Response parsing -/

theorem hasReplyShape_chatFallback (response : JsString) (character : Character) :
    hasReplyShape (chatFallback response character) = true := by
  simp only [chatFallback, hasReplyShape, hasOwn]
  decide

theorem parseChatResponse_of_error (response : JsString) (character : Character)
    (err : JsError) (h : jsonParse (trim (stripFences response)) = .error err) :
    parseChatResponse response character = chatFallback response character := by
  simp [parseChatResponse, h]

theorem parseChatResponse_of_ok (response : JsString) (character : Character)
    (v : JsVal) (h : jsonParse (trim (stripFences response)) = .ok v) :
    parseChatResponse response character = v := by
  simp [parseChatResponse, h]

theorem jsonParse_error (s : JsString) (err : JsError) (h : jsonParse s = .error err) :
    err = .syntaxErr := by
  unfold jsonParse at h
  split at h
  · split at h
    · cases h
    · cases h
      rfl
  · cases h
    rfl

/-- C3, amended. For every model text and character the parsing step of the chat
handler returns a value and never throws: either the value `JSON.parse` decodes from
the stripped and trimmed text, whatever its shape, or, when `JSON.parse` throws, the
fallback object with the properties `text`, `emotion`, `scene` and `imagePrompt`. -/
theorem parseChatResponse_total (response : JsString) (character : Character) :
    jsonParse (trim (stripFences response)) = .ok (parseChatResponse response character) ∨
    (jsonParse (trim (stripFences response)) = .error .syntaxErr ∧
      parseChatResponse response character = chatFallback response character ∧
      hasReplyShape (parseChatResponse response character) = true) := by
  cases h : jsonParse (trim (stripFences response)) with
  | ok v => exact Or.inl (by rw [parseChatResponse_of_ok response character v h])
  | error err =>
    have he := jsonParse_error _ _ h
    subst he
    refine Or.inr ⟨rfl, parseChatResponse_of_error response character _ h, ?_⟩
    rw [parseChatResponse_of_error response character _ h]
    exact hasReplyShape_chatFallback response character

/-- C3, counterexample. On the model text `null` the parsing step yields the value
`null`, which is not an object and has none of the four properties. -/
theorem parseChatResponse_counterexample :
    parseChatResponse (utf16 "null") sampleCharacter = .null ∧
    hasReplyShape (parseChatResponse (utf16 "null") sampleCharacter) = false :=
  ⟨rfl, rfl⟩

/-! ## The chat handler when the gateway fails -/

/-- C4, amended. When the model gateway call fails during a chat request, the reply
has status 500 and the fixed body; the store is unchanged when the character name
already has an entry, and otherwise gains, as its last entry, the entry for that name
seeded with the request's personality and story and no turn; the turns stored under
every name are unchanged. -/
theorem chat_gateway_failure (gen : Gateway) (now : Nat) (req : ChatRequest) (mem : Store)
    (h : gen (credentialOf req.apiKey)
      (chatContext req.character req.history req.message) = none) :
    (chat gen now req mem).2 =
      .failed (utf16 "حدث خطأ في المعالجة") (utf16 "عذراً، حدث خطأ. حاول مرة أخرى.") ∧
    (chat gen now req mem).2.status = 500 ∧
    (∀ entry, mapGet mem req.character.name = some entry → (chat gen now req mem).1 = mem) ∧
    (mapGet mem req.character.name = none →
      (chat gen now req mem).1 = mem ++ [(req.character.name,
        { personality := req.character.personality, story := req.character.story,
          training := none, conversations := [] })]) ∧
    (∀ name, storedTurns (chat gen now req mem).1 name = storedTurns mem name) := by
  rw [chat_of_gateway_failed gen now req mem h]
  refine ⟨rfl, rfl, ?_, ?_, ?_⟩
  · intro entry he
    exact getOrCreate_of_present mem req.character entry he
  · intro he
    exact getOrCreate_of_absent mem req.character he
  · intro name
    by_cases hn : name = req.character.name
    · subst hn
      obtain ⟨entry, he, -, -, hc⟩ := mapGet_getOrCreate_self mem req.character
      simp only [storedTurns, he]
      simpa [storedTurns] using hc
    · simp only [storedTurns, mapGet_getOrCreate_ne mem req.character name hn]

/-- C4, witness. A failing gateway on the empty store, and on a store that already
has the entry of the name. -/
theorem chat_gateway_failure_witness :
    failingGateway (credentialOf sampleChat.apiKey)
      (chatContext sampleChat.character sampleChat.history sampleChat.message) = none ∧
    (chat failingGateway 0 sampleChat []).2.status = 500 ∧
    (chat failingGateway 0 sampleChat [(utf16 "Layla", freshEntry sampleCharacter)]).1 =
      [(utf16 "Layla", freshEntry sampleCharacter)] :=
  ⟨rfl, (chat_gateway_failure failingGateway 0 sampleChat [] rfl).2.1,
    (chat_gateway_failure failingGateway 0 sampleChat
      [(utf16 "Layla", freshEntry sampleCharacter)] rfl).2.2.1 _ rfl⟩

/-- C4, counterexample. A chat request for a name the empty store has not seen, with a
failing gateway, is answered with status 500 and leaves a store that is not the store
before the request: it holds a new entry for the name. -/
theorem chat_gateway_failure_counterexample :
    (chat failingGateway 0 sampleChat []).2.status = 500 ∧
    (chat failingGateway 0 sampleChat []).1 = [(utf16 "Layla", freshEntry sampleCharacter)] ∧
    (chat failingGateway 0 sampleChat []).1 ≠ [] :=
  ⟨rfl, rfl, by rw [show (chat failingGateway 0 sampleChat []).1 =
    [(utf16 "Layla", freshEntry sampleCharacter)] from rfl]; exact List.cons_ne_nil _ _⟩

/-! ## The train handler -/

/-- C6. After a train request whose gateway call succeeds, the entry stored under the
character name holds the request's personality and story, the text the model answered
as `training`, and no turn, whatever the store held for that name before; the entries
under all other names are unchanged, and the number of entries grows by one exactly
when the name was new. -/
theorem train_overwrites (gen : Gateway) (req : TrainRequest) (mem : Store)
    (training : JsString) (h : gen none (trainPrompt req.character) = some training) :
    mapGet (train gen req mem).1 req.character.name =
      some { personality := req.character.personality, story := req.character.story,
             training := some training, conversations := [] } ∧
    storedTurns (train gen req mem).1 req.character.name = [] ∧
    (∀ name, name ≠ req.character.name →
      mapGet (train gen req mem).1 name = mapGet mem name) ∧
    (train gen req mem).1.length =
      (if mapHas mem req.character.name then mem.length else mem.length + 1) ∧
    (train gen req mem).2 = .ok true (utf16 "تم تدريب الشخصية") := by
  have ht : train gen req mem =
      (mapSet mem req.character.name
        { personality := req.character.personality, story := req.character.story,
          training := some training, conversations := [] },
       .ok true (utf16 "تم تدريب الشخصية")) := by
    simp [train, h]
  rw [ht]
  refine ⟨mapGet_mapSet_self _ _ _, by simp [storedTurns, mapGet_mapSet_self], ?_, ?_, rfl⟩
  · intro name hn
    exact mapGet_mapSet_ne _ _ _ _ hn
  · unfold mapHas
    cases he : mapGet mem req.character.name with
    | none => simp [mapSet_of_absent _ _ _ he]
    | some e0 => simp [mapSet_length_of_present _ _ _ e0 he]

/-- C6, witness. Training `Layla` over an entry that holds one turn. -/
theorem train_overwrites_witness :
    constGateway "yes" none (trainPrompt sampleTrain.character) = some (utf16 "yes") ∧
    mapGet (train (constGateway "yes") sampleTrain
      [(utf16 "Layla", { freshEntry sampleCharacter with conversations := [sampleTurn] })]).1
        sampleTrain.character.name =
      some { personality := utf16 "kind", story := utf16 "a story",
             training := some (utf16 "yes"), conversations := [] } :=
  ⟨rfl, (train_overwrites (constGateway "yes") sampleTrain
    [(utf16 "Layla", { freshEntry sampleCharacter with conversations := [sampleTurn] })]
    (utf16 "yes") rfl).1⟩

/-! ## The chat handler: first reference to a name, and the reply fields -/

theorem chat_store_ne (gen : Gateway) (now : Nat) (req : ChatRequest) (mem : Store)
    (name : JsString) (hn : name ≠ req.character.name) :
    mapGet (chat gen now req mem).1 name = mapGet mem name := by
  cases hg : gen (credentialOf req.apiKey)
      (chatContext req.character req.history req.message) with
  | none =>
    rw [chat_of_gateway_failed gen now req mem hg]
    exact mapGet_getOrCreate_ne mem _ name hn
  | some response =>
    cases hnl : isNullish (parseChatResponse response req.character) with
    | true =>
      rw [chat_of_nullish gen now req mem response hg hnl]
      exact mapGet_getOrCreate_ne mem _ name hn
    | false =>
      obtain ⟨entry, he, -⟩ := mapGet_getOrCreate_self mem req.character
      rw [chat_of_value gen now req mem response entry hg hnl he]
      simp only []
      rw [mapGet_mapSet_ne _ _ _ _ hn]
      exact mapGet_getOrCreate_ne mem _ name hn

theorem chat_store_length (gen : Gateway) (now : Nat) (req : ChatRequest) (mem : Store) :
    (chat gen now req mem).1.length = (getOrCreate mem req.character).length := by
  cases hg : gen (credentialOf req.apiKey)
      (chatContext req.character req.history req.message) with
  | none => rw [chat_of_gateway_failed gen now req mem hg]
  | some response =>
    cases hnl : isNullish (parseChatResponse response req.character) with
    | true => rw [chat_of_nullish gen now req mem response hg hnl]
    | false =>
      obtain ⟨entry, he, -⟩ := mapGet_getOrCreate_self mem req.character
      rw [chat_of_value gen now req mem response entry hg hnl he]
      exact mapSet_length_of_present _ _ _ entry he

/-- The entry of the request's name after a chat request: the entry left by the
get-or-create statement, with the turn of the reply appended when the status is 200. -/
theorem chat_store_self (gen : Gateway) (now : Nat) (req : ChatRequest) (mem : Store)
    (entry : MemoryEntry)
    (he : mapGet (getOrCreate mem req.character) req.character.name = some entry) :
    (∀ text emotion scene image, (chat gen now req mem).2 = .ok text emotion scene image →
      mapGet (chat gen now req mem).1 req.character.name =
        some { entry with
          conversations := (appendTurn entry.conversations (Turn.mk req.message text now)) }) ∧
    ((chat gen now req mem).2.status ≠ 200 →
      mapGet (chat gen now req mem).1 req.character.name = some entry) := by
  cases hg : gen (credentialOf req.apiKey)
      (chatContext req.character req.history req.message) with
  | none =>
    rw [chat_of_gateway_failed gen now req mem hg]
    exact ⟨fun _ _ _ _ h => by simp [chatError] at h, fun _ => he⟩
  | some response =>
    cases hnl : isNullish (parseChatResponse response req.character) with
    | true =>
      rw [chat_of_nullish gen now req mem response hg hnl]
      exact ⟨fun _ _ _ _ h => by simp [chatError] at h, fun _ => he⟩
    | false =>
      rw [chat_of_value gen now req mem response entry hg hnl he]
      refine ⟨?_, fun h => absurd rfl h⟩
      intro text emotion scene image h
      simp only [ChatResponse.ok.injEq] at h
      rw [mapGet_mapSet_self, h.1]

/-- C7. A chat request whose character name has no entry in the store makes the
get-or-create statement add one entry, keyed by that name, with the request's
personality and story and no turn; the store after the request has exactly one entry
more, the entries under all other names are as before, after a reply with status 200
the new entry holds exactly the turn of the request message and the reply text, and
after a reply with status 500 it holds no turn. When the name already has an entry,
no entry is added and the personality, story and training of the entry are kept. -/
theorem chat_first_reference (gen : Gateway) (now : Nat) (req : ChatRequest) (mem : Store) :
    (mapGet mem req.character.name = none →
      getOrCreate mem req.character = mem ++ [(req.character.name,
        { personality := req.character.personality, story := req.character.story,
          training := none, conversations := [] })] ∧
      (chat gen now req mem).1.length = mem.length + 1 ∧
      (∀ name, name ≠ req.character.name →
        mapGet (chat gen now req mem).1 name = mapGet mem name) ∧
      (∀ text emotion scene image, (chat gen now req mem).2 = .ok text emotion scene image →
        mapGet (chat gen now req mem).1 req.character.name =
          some { personality := req.character.personality, story := req.character.story,
                 training := none, conversations := [Turn.mk req.message text now] }) ∧
      ((chat gen now req mem).2.status ≠ 200 →
        mapGet (chat gen now req mem).1 req.character.name =
          some { personality := req.character.personality, story := req.character.story,
                 training := none, conversations := [] })) ∧
    (∀ entry, mapGet mem req.character.name = some entry →
      (chat gen now req mem).1.length = mem.length ∧
      (∀ name, name ≠ req.character.name →
        mapGet (chat gen now req mem).1 name = mapGet mem name) ∧
      ∃ entry2, mapGet (chat gen now req mem).1 req.character.name = some entry2 ∧
        entry2.personality = entry.personality ∧ entry2.story = entry.story ∧
        entry2.training = entry.training) := by
  constructor
  · intro hnew
    have hgc := getOrCreate_of_absent mem req.character hnew
    have he : mapGet (getOrCreate mem req.character) req.character.name =
        some (freshEntry req.character) := by
      simp [getOrCreate, mapHas, hnew, mapGet_mapSet_self]
    obtain ⟨hok, hfail⟩ := chat_store_self gen now req mem _ he
    refine ⟨hgc, ?_, fun name hn => chat_store_ne gen now req mem name hn, ?_, ?_⟩
    · rw [chat_store_length, hgc]
      simp
    · intro text emotion scene image h
      rw [hok text emotion scene image h]
      simp [freshEntry, appendTurn]
    · intro h
      rw [hfail h]
      rfl
  · intro entry hentry
    have hgc := getOrCreate_of_present mem req.character entry hentry
    have he : mapGet (getOrCreate mem req.character) req.character.name = some entry := by
      rw [hgc]
      exact hentry
    obtain ⟨hok, hfail⟩ := chat_store_self gen now req mem _ he
    refine ⟨by rw [chat_store_length, hgc],
      fun name hn => chat_store_ne gen now req mem name hn, ?_⟩
    cases hr : (chat gen now req mem).2 with
    | ok text emotion scene image =>
      exact ⟨_, hok text emotion scene image hr, rfl, rfl, rfl⟩
    | failed error text =>
      exact ⟨entry, hfail (by rw [hr]; simp [ChatResponse.status]), rfl, rfl, rfl⟩

/-- C7, witness. A first chat for `Layla` on the empty store, and a chat for `Layla` on
a store that has an entry for her. -/
theorem chat_first_reference_witness :
    mapGet [] sampleChat.character.name = none ∧
    mapGet (chat (constGateway "hi") 0 sampleChat []).1 sampleChat.character.name =
      some { personality := utf16 "kind", story := utf16 "a story", training := none,
             conversations := [Turn.mk (utf16 "مرحبا") (.str (utf16 "hi")) 0] } ∧
    (chat (constGateway "hi") 5 sampleChat
      [(utf16 "Layla", { personality := utf16 "shy", story := utf16 "other",
                         training := some (utf16 "yes"), conversations := [] })]).1.length = 1 :=
  ⟨rfl,
   ((chat_first_reference (constGateway "hi") 0 sampleChat []).1 rfl).2.2.2.1
     (.str (utf16 "hi")) (.str (utf16 "محايد")) (.str (utf16 "garden"))
     (.str (placeholderBase ++ utf16 "Layla%20in%20garden")) rfl,
   ((chat_first_reference (constGateway "hi") 5 sampleChat
      [(utf16 "Layla", { personality := utf16 "shy", story := utf16 "other",
                         training := some (utf16 "yes"), conversations := [] })]).2 _ rfl).1⟩

/-! ## The chat handler: the fallback reply and the emotion field -/

theorem isNullish_chatFallback (response : JsString) (character : Character) :
    isNullish (chatFallback response character) = false := rfl

theorem fieldOf_chatFallback (response : JsString) (character : Character) :
    fieldOf (chatFallback response character) (utf16 "text") = .str response ∧
    fieldOf (chatFallback response character) (utf16 "emotion") = .str (utf16 "محايد") ∧
    fieldOf (chatFallback response character) (utf16 "scene") = .str character.scene ∧
    fieldOf (chatFallback response character) (utf16 "imagePrompt") =
      .str (character.name ++ utf16 " in " ++ character.scene) := by
  refine ⟨?_, ?_, ?_, ?_⟩ <;>
    simp only [fieldOf, chatFallback, getProp, lookupProp] <;> rfl

/-- C9. When the model text fails `JSON.parse` after the fence markers are stripped and
the text is trimmed, the parsed value of the chat handler is the fallback: `text` is
the model text verbatim, `emotion` is the sentinel, `scene` is the request character's
scene and `imagePrompt` is the name, ` in ` and the scene; the reply has status 200 and
carries that text, emotion and scene, with the image resolved from that prompt. -/
theorem chat_fallback_reply (gen : Gateway) (now : Nat) (req : ChatRequest) (mem : Store)
    (response : JsString) (err : JsError)
    (hg : gen (credentialOf req.apiKey)
      (chatContext req.character req.history req.message) = some response)
    (hp : jsonParse (trim (stripFences response)) = .error err) :
    parseChatResponse response req.character =
      .obj [(utf16 "text", .str response),
            (utf16 "emotion", .str (utf16 "محايد")),
            (utf16 "scene", .str req.character.scene),
            (utf16 "imagePrompt",
              .str (req.character.name ++ utf16 " in " ++ req.character.scene))] ∧
    (chat gen now req mem).2 =
      .ok (.str response) (.str (utf16 "محايد")) (.str req.character.scene)
        (generateImage (.str (req.character.name ++ utf16 " in " ++ req.character.scene))) ∧
    (chat gen now req mem).2.status = 200 := by
  have hf := parseChatResponse_of_error response req.character err hp
  obtain ⟨entry, he, -⟩ := mapGet_getOrCreate_self mem req.character
  have hn : isNullish (parseChatResponse response req.character) = false := by
    rw [hf]
    rfl
  obtain ⟨h1, h2, h3, h4⟩ := fieldOf_chatFallback response req.character
  rw [chat_of_value gen now req mem response entry hg hn he, hf, h1, h2, h3, h4]
  exact ⟨rfl, rfl, rfl⟩

/-- C9, witness. The model text `hi` is not JSON. -/
theorem chat_fallback_reply_witness :
    constGateway "hi" (credentialOf sampleChat.apiKey)
      (chatContext sampleChat.character sampleChat.history sampleChat.message) =
        some (utf16 "hi") ∧
    jsonParse (trim (stripFences (utf16 "hi"))) = .error .syntaxErr ∧
    (chat (constGateway "hi") 0 sampleChat []).2 =
      .ok (.str (utf16 "hi")) (.str (utf16 "محايد")) (.str sampleChat.character.scene)
        (generateImage (.str (sampleChat.character.name ++ utf16 " in " ++
          sampleChat.character.scene))) :=
  ⟨rfl, rfl, (chat_fallback_reply (constGateway "hi") 0 sampleChat [] (utf16 "hi")
    .syntaxErr rfl rfl).2.1⟩

/-- C8, amended. In a chat reply with status 200 the `emotion` field is the `emotion`
property of the parsed value, passed on unchecked: it is the sentinel, a member of the
sentiment set, whenever the model text fails `JSON.parse`, and it is whatever the
decoded value holds under `emotion` otherwise. -/
theorem chat_emotion_passthrough (gen : Gateway) (now : Nat) (req : ChatRequest)
    (mem : Store) (text emotion scene image : JsVal)
    (h : (chat gen now req mem).2 = .ok text emotion scene image) :
    ∃ response, gen (credentialOf req.apiKey)
        (chatContext req.character req.history req.message) = some response ∧
      (∀ err, jsonParse (trim (stripFences response)) = .error err →
        emotion = .str (utf16 "محايد") ∧ isSentiment emotion = true) ∧
      (∀ v, jsonParse (trim (stripFences response)) = .ok v →
        emotion = fieldOf v (utf16 "emotion")) := by
  have hs : (chat gen now req mem).2.status = 200 := by
    rw [h]
    rfl
  obtain ⟨response, hg, hn⟩ := chat_ok_inv gen now req mem hs
  obtain ⟨entry, he, -⟩ := mapGet_getOrCreate_self mem req.character
  rw [chat_of_value gen now req mem response entry hg hn he] at h
  simp only [ChatResponse.ok.injEq] at h
  refine ⟨response, hg, ?_, ?_⟩
  · intro err hp
    have he2 : emotion = .str (utf16 "محايد") := by
      rw [← h.2.1, parseChatResponse_of_error response req.character err hp]
      exact (fieldOf_chatFallback response req.character).2.1
    refine ⟨he2, ?_⟩
    rw [he2]
    decide
  · intro v hp
    rw [← h.2.1, parseChatResponse_of_ok response req.character v hp]

/-- C8, witness. The model text `hi` is not JSON and the reply carries the sentinel. -/
theorem chat_emotion_passthrough_witness :
    (chat (constGateway "hi") 0 sampleChat []).2 =
      .ok (.str (utf16 "hi")) (.str (utf16 "محايد")) (.str (utf16 "garden"))
        (.str (placeholderBase ++ utf16 "Layla%20in%20garden")) ∧
    ∃ response, constGateway "hi" (credentialOf sampleChat.apiKey)
        (chatContext sampleChat.character sampleChat.history sampleChat.message) =
          some response ∧
      (∀ err, jsonParse (trim (stripFences response)) = .error err →
        JsVal.str (utf16 "محايد") = .str (utf16 "محايد") ∧
          isSentiment (.str (utf16 "محايد")) = true) ∧
      (∀ v, jsonParse (trim (stripFences response)) = .ok v →
        JsVal.str (utf16 "محايد") = fieldOf v (utf16 "emotion")) :=
  ⟨rfl, chat_emotion_passthrough (constGateway "hi") 0 sampleChat [] _ _ _ _ rfl⟩

/-- C8, counterexample. When the model answers the JSON object whose `emotion` is
`joyful`, the chat reply has status 200 and its `emotion` is `joyful`, which is not
one of the five sentiment words. -/
theorem chat_emotion_counterexample :
    (chat (constGateway "\x7b\"emotion\":\"joyful\"\x7d") 0 sampleChat []).2 =
      .ok .undefined (.str (utf16 "joyful")) .undefined .null ∧
    (chat (constGateway "\x7b\"emotion\":\"joyful\"\x7d") 0 sampleChat []).2.status = 200 ∧
    isSentiment (.str (utf16 "joyful")) = false :=
  ⟨rfl, rfl, by decide⟩

/-! ## The generate handler -/

theorem lookupProp_setProp_self (k : JsString) (v : JsVal) (props : List (JsString × JsVal)) :
    lookupProp k (setProp k v props) = v := by
  induction props with
  | nil => simp [setProp, lookupProp]
  | cons p rest ih =>
    obtain ⟨k2, v2⟩ := p
    by_cases h : k2 = k <;> simp [setProp, lookupProp, h, ih]

theorem lookupProp_setProp_ne (k k2 : JsString) (v : JsVal) (props : List (JsString × JsVal))
    (h : k2 ≠ k) : lookupProp k2 (setProp k v props) = lookupProp k2 props := by
  induction props with
  | nil => simp [setProp, lookupProp, Ne.symm h]
  | cons p rest ih =>
    obtain ⟨k3, v3⟩ := p
    by_cases h3 : k3 = k
    · subst h3
      simp [setProp, lookupProp, Ne.symm h]
    · by_cases h4 : k3 = k2
      · subst h4
        simp [setProp, lookupProp, h3]
      · simp [setProp, lookupProp, h3, h4, ih]

theorem parseGenerateResponse_of_error (response : JsString) (name : Option JsString)
    (err : JsError) (h : jsonParse (trim (stripFences response)) = .error err) :
    parseGenerateResponse response name = generateFallback response name := by
  simp [parseGenerateResponse, h]

theorem orElse_of_not_truthy (name : Option JsString) (d : JsString)
    (h : truthy name = false) : orElse name d = d := by
  cases name with
  | none => rfl
  | some s =>
    simp only [truthy, Bool.not_eq_false'] at h
    simp [orElse, h]

/-- A generate reply with status 200 comes from a gateway answer; the seed is
`ToString` of the `name` of the parsed value and the reply is the parsed value after
the assignment of `image`. -/
theorem generate_ok_inv (gen : Gateway) (numStr : JsString → JsString)
    (req : GenerateRequest) (character : JsVal)
    (h : generate gen numStr req = .ok character) :
    ∃ response seed encoded, gen none (generatePrompt req) = some response ∧
      isNullish (parseGenerateResponse response req.name) = false ∧
      toStringJs numStr (fieldOf (parseGenerateResponse response req.name) (utf16 "name")) =
        .ok seed ∧
      encodeURIComponent seed = .ok encoded ∧
      character = assignImage (parseGenerateResponse response req.name)
        (.str (avatarBase ++ encoded)) := by
  unfold generate at h
  cases hg : gen none (generatePrompt req) with
  | none => simp [hg] at h
  | some response =>
    cases hn : isNullish (parseGenerateResponse response req.name) with
    | true => simp [hg, getProp_of_nullish _ _ hn] at h
    | false =>
      simp only [hg, getProp_of_not_nullish _ _ hn] at h
      cases hs : toStringJs numStr
          (fieldOf (parseGenerateResponse response req.name) (utf16 "name")) with
      | error e => simp [hs] at h
      | ok seed =>
        cases he : encodeURIComponent seed with
        | error e => simp [hs, he] at h
        | ok encoded =>
          simp only [hs, he, GenerateResponse.ok.injEq] at h
          exact ⟨response, seed, encoded, rfl, hn, hs, he, h.symm⟩

/-- C10, amended. In a generate reply with status 200 whose parsed character value is
an object, as it is whenever `JSON.parse` throws, the returned character has an
`image` property equal to the avatar address followed by the percent-encoding of
`ToString` of its `name`, and the other properties are those of the parsed value; a
parsed value that is not an object is returned as it is. A request without a name
whose model text fails `JSON.parse` is answered with status 200: the character's name
is the fallback name, its image is derived from that name, and its story is the model
text verbatim. -/
theorem generate_avatar (gen : Gateway) (numStr : JsString → JsString)
    (req : GenerateRequest) :
    (∀ character, generate gen numStr req = .ok character →
      ∃ response seed encoded, gen none (generatePrompt req) = some response ∧
        toStringJs numStr
          (fieldOf (parseGenerateResponse response req.name) (utf16 "name")) = .ok seed ∧
        encodeURIComponent seed = .ok encoded ∧
        (∀ props, parseGenerateResponse response req.name = .obj props →
          ∃ props2, character = .obj props2 ∧
            lookupProp (utf16 "image") props2 = .str (avatarBase ++ encoded) ∧
            ∀ k, k ≠ utf16 "image" → lookupProp k props2 = lookupProp k props) ∧
        ((∀ props, parseGenerateResponse response req.name ≠ .obj props) →
          character = parseGenerateResponse response req.name)) ∧
    (∀ response err, gen none (generatePrompt req) = some response →
      jsonParse (trim (stripFences response)) = .error err → truthy req.name = false →
      generate gen numStr req = .ok (.obj
        [(utf16 "name", .str (utf16 "شخصية جديدة")),
         (utf16 "story", .str response),
         (utf16 "personality", .str (utf16 "ذكي، مرح، طموح")),
         (utf16 "scene", .str (utf16 "مكان مناسب")),
         (utf16 "imagePrompt", .str (utf16 "character portrait")),
         (utf16 "image", .str (avatarBase ++
           utf16 "%D8%B4%D8%AE%D8%B5%D9%8A%D8%A9%20%D8%AC%D8%AF%D9%8A%D8%AF%D8%A9"))])) := by
  constructor
  · intro character h
    obtain ⟨response, seed, encoded, hg, -, hs, he, hc⟩ :=
      generate_ok_inv gen numStr req character h
    refine ⟨response, seed, encoded, hg, hs, he, ?_, ?_⟩
    · intro props hp
      rw [hc, hp]
      exact ⟨_, rfl, lookupProp_setProp_self _ _ _,
        fun k hk => lookupProp_setProp_ne _ _ _ _ hk⟩
    · intro hno
      rw [hc]
      cases hv : parseGenerateResponse response req.name with
      | obj props => exact absurd hv (hno props)
      | _ => rfl
  · intro response err hg hp hname
    have hf := parseGenerateResponse_of_error response req.name err hp
    have henc : encodeURIComponent (utf16 "شخصية جديدة") =
        .ok (utf16 "%D8%B4%D8%AE%D8%B5%D9%8A%D8%A9%20%D8%AC%D8%AF%D9%8A%D8%AF%D8%A9") := by
      rfl
    unfold generate
    simp only [hg, hf, generateFallback, orElse_of_not_truthy _ _ hname, getProp, lookupProp,
      if_true, toStringJs, henc, assignImage]
    rfl


/-- C10, witness. A request without a name whose model text is not JSON gets the
fallback character with its avatar; a model text that is a JSON object with a name
gets the avatar of that name. -/
theorem generate_avatar_witness :
    echoGateway (utf16 "once upon a time") none (generatePrompt elaborateRequest) =
      some (utf16 "once upon a time") ∧
    jsonParse (trim (stripFences (utf16 "once upon a time"))) = .error .syntaxErr ∧
    truthy elaborateRequest.name = false ∧
    generate (echoGateway (utf16 "once upon a time")) id elaborateRequest = .ok (.obj
      [(utf16 "name", .str (utf16 "شخصية جديدة")),
       (utf16 "story", .str (utf16 "once upon a time")),
       (utf16 "personality", .str (utf16 "ذكي، مرح، طموح")),
       (utf16 "scene", .str (utf16 "مكان مناسب")),
       (utf16 "imagePrompt", .str (utf16 "character portrait")),
       (utf16 "image", .str (avatarBase ++
         utf16 "%D8%B4%D8%AE%D8%B5%D9%8A%D8%A9%20%D8%AC%D8%AF%D9%8A%D8%AF%D8%A9"))]) ∧
    generate (constGateway "\x7b\"name\":\"Nour\"\x7d") id elaborateRequest = .ok (.obj
      [(utf16 "name", .str (utf16 "Nour")),
       (utf16 "image", .str (avatarBase ++ utf16 "Nour"))]) ∧
    ∃ response seed encoded,
      constGateway "\x7b\"name\":\"Nour\"\x7d" none (generatePrompt elaborateRequest) =
        some response ∧
      toStringJs id
        (fieldOf (parseGenerateResponse response elaborateRequest.name) (utf16 "name")) =
          .ok seed ∧
      encodeURIComponent seed = .ok encoded ∧
      (∀ props, parseGenerateResponse response elaborateRequest.name = .obj props →
        ∃ props2, JsVal.obj [(utf16 "name", .str (utf16 "Nour")),
            (utf16 "image", .str (avatarBase ++ utf16 "Nour"))] = .obj props2 ∧
          lookupProp (utf16 "image") props2 = .str (avatarBase ++ encoded) ∧
          ∀ k, k ≠ utf16 "image" → lookupProp k props2 = lookupProp k props) ∧
      ((∀ props, parseGenerateResponse response elaborateRequest.name ≠ .obj props) →
        JsVal.obj [(utf16 "name", .str (utf16 "Nour")),
          (utf16 "image", .str (avatarBase ++ utf16 "Nour"))] =
            parseGenerateResponse response elaborateRequest.name) :=
  ⟨rfl, rfl, rfl,
   (generate_avatar (echoGateway (utf16 "once upon a time")) id elaborateRequest).2
     (utf16 "once upon a time") .syntaxErr rfl rfl rfl,
   rfl,
   (generate_avatar (constGateway "\x7b\"name\":\"Nour\"\x7d") id elaborateRequest).1 _ rfl⟩

/-- C10, counterexample. A generate request with `base_story` set and no name is
answered with status 200 and a character whose story equals `base_story` when the
model answers with the text of `base_story`; and when the model answers the JSON text
`42` the reply has status 200 and the returned character is the number 42, which has
no `image` property. -/
theorem generate_counterexample :
    elaborateRequest.base_story = some (utf16 "abc") ∧ elaborateRequest.name = none ∧
    generate (echoGateway (utf16 "abc")) id elaborateRequest = .ok (.obj
      [(utf16 "name", .str (utf16 "شخصية جديدة")),
       (utf16 "story", .str (utf16 "abc")),
       (utf16 "personality", .str (utf16 "ذكي، مرح، طموح")),
       (utf16 "scene", .str (utf16 "مكان مناسب")),
       (utf16 "imagePrompt", .str (utf16 "character portrait")),
       (utf16 "image", .str (avatarBase ++
         utf16 "%D8%B4%D8%AE%D8%B5%D9%8A%D8%A9%20%D8%AC%D8%AF%D9%8A%D8%AF%D8%A9"))]) ∧
    generate (constGateway "42") id elaborateRequest = .ok (.num (utf16 "42")) ∧
    (generate (constGateway "42") id elaborateRequest).status = 200 ∧
    fieldOf (.num (utf16 "42")) (utf16 "image") = .undefined :=
  ⟨rfl, rfl, rfl, rfl, rfl, rfl⟩

/-! ## Witnesses of the window properties -/

/-- C1, witness. After 51 chat requests for one name the store holds one entry with
50 turns. -/
theorem memory_window_invariant_witness :
    (utf16 "Layla", { freshEntry sampleCharacter with
        conversations := List.replicate 50 sampleTurn }) ∈
      run [] (List.replicate 51 (Request.chat (constGateway "hi") 0 sampleChat)) ∧
    (List.replicate 50 sampleTurn).length ≤ 50 :=
  have h : (utf16 "Layla", { freshEntry sampleCharacter with
        conversations := List.replicate 50 sampleTurn }) ∈
      run [] (List.replicate 51 (Request.chat (constGateway "hi") 0 sampleChat)) := by
    rw [show run [] (List.replicate 51 (Request.chat (constGateway "hi") 0 sampleChat)) =
      [(utf16 "Layla", { freshEntry sampleCharacter with
        conversations := List.replicate 50 sampleTurn })] from rfl]
    exact List.mem_singleton_self _
  ⟨h, memory_window_invariant _ _ _ h⟩

/-- C2, witness. After 51 chat requests for a new name, all answered with status 200,
the stored turns are the last 50 appended turns. -/
theorem chat_sliding_window_witness :
    mapGet [] (utf16 "Layla") = none ∧
    (∀ c ∈ List.replicate 51 sampleCall, c.req.character.name = utf16 "Layla") ∧
    (∀ r ∈ (serveChats [] (List.replicate 51 sampleCall)).2, r.status = 200) ∧
    storedTurns (serveChats [] (List.replicate 51 sampleCall)).1 (utf16 "Layla") =
      (List.zipWith turnOf (List.replicate 51 sampleCall)
        (serveChats [] (List.replicate 51 sampleCall)).2).drop
          ((List.replicate 51 sampleCall).length - 50) ∧
    (storedTurns (serveChats [] (List.replicate 51 sampleCall)).1 (utf16 "Layla")).length =
      min (List.replicate 51 sampleCall).length 50 :=
  have hname : ∀ c ∈ List.replicate 51 sampleCall, c.req.character.name = utf16 "Layla" := by
    intro c hc
    rw [List.eq_of_mem_replicate hc]
    rfl
  have hok : ∀ r ∈ (serveChats [] (List.replicate 51 sampleCall)).2, r.status = 200 := by
    rw [show (serveChats [] (List.replicate 51 sampleCall)).2 =
      List.replicate 51 (ChatResponse.ok (.str (utf16 "hi")) (.str (utf16 "محايد"))
        (.str (utf16 "garden")) (.str (placeholderBase ++ utf16 "Layla%20in%20garden")))
      from rfl]
    intro r hr
    rw [List.eq_of_mem_replicate hr]
    rfl
  ⟨rfl, hname, hok,
   (chat_sliding_window [] (utf16 "Layla") (List.replicate 51 sampleCall) rfl hname hok).2.1,
   (chat_sliding_window [] (utf16 "Layla") (List.replicate 51 sampleCall) rfl hname hok).2.2.1⟩

end CharacterServer
